import Mathlib

/-!
Verification of the kernel-series configuration model (`kernel_series.py`)
and the QA-tracker client (`qatracker.py`) of the ubuntu-archive-tools
collection.  The Python classes are shallowly embedded: YAML documents
become the `YVal`/`YList`/`YMap` mutual inductive below (association lists
standing for Python dicts, which preserve insertion order), the entity
views become Lean structures, and every Python exception becomes a `PyErr`
value threaded through `Except`.
-/

namespace KSeries

/-- A Python exception, by kind (the message is kept when the code builds one). -/
inductive PyErr where
  | valueError (msg : String)
  | keyError
  | attributeError
  | typeError (msg : String)
  | indexError (msg : String)
  | exception (msg : String)
deriving DecidableEq, Repr

/-- Equality of Python outcomes is decidable (used to evaluate the model on
concrete inputs). -/
instance {ε α : Type} [DecidableEq ε] [DecidableEq α] : DecidableEq (Except ε α)
  | .error e, .error f =>
      if h : e = f then .isTrue (congrArg Except.error h)
      else .isFalse (fun hh => h (by cases hh; rfl))
  | .error _, .ok _ => .isFalse (fun hh => Except.noConfusion hh)
  | .ok _, .error _ => .isFalse (fun hh => Except.noConfusion hh)
  | .ok x, .ok y =>
      if h : x = y then .isTrue (congrArg Except.ok h)
      else .isFalse (fun hh => h (by cases hh; rfl))

mutual
/-- A YAML value as `yaml.safe_load` produces it: null, booleans, integers,
strings, sequences and mappings.  Mappings keep insertion order, like
Python dicts. -/
inductive YVal where
  | null
  | bool (b : Bool)
  | int (n : Int)
  | str (s : String)
  | list (xs : YList)
  | map (m : YMap)
deriving DecidableEq, Repr
/-- A YAML sequence. -/
inductive YList where
  | nil
  | cons (v : YVal) (tl : YList)
deriving DecidableEq, Repr
/-- A YAML mapping: ordered key/value pairs (keys are strings, as in every
kernel-series document). -/
inductive YMap where
  | nil
  | cons (k : String) (v : YVal) (tl : YMap)
deriving DecidableEq, Repr
end

/-- Build a `YList` from a Lean list (convenience for concrete documents). -/
def yl : List YVal → YList
  | [] => .nil
  | v :: tl => .cons v (yl tl)

/-- Build a `YMap` from a Lean association list. -/
def ym : List (String × YVal) → YMap
  | [] => .nil
  | (k, v) :: tl => .cons k v (ym tl)

/-- The underlying Lean list of a `YList`. -/
def YList.toList : YList → List YVal
  | .nil => []
  | .cons v tl => v :: tl.toList

/-- The key/value pairs of a `YMap`, in order (Python `dict.items()`). -/
def YMap.toList : YMap → List (String × YVal)
  | .nil => []
  | .cons k v tl => (k, v) :: tl.toList

/-- The keys of a `YMap`, in order (Python `dict.keys()`). -/
def YMap.keys : YMap → List String
  | .nil => []
  | .cons k _ tl => k :: tl.keys

/-- Python `d.get(key)` / `d[key]`: the first binding of `key`, if any. -/
def YMap.get : YMap → String → Option YVal
  | .nil, _ => none
  | .cons k v tl, key => if k = key then some v else tl.get key

/-- Python `key in d`. -/
def YMap.hasKey (m : YMap) (key : String) : Bool :=
  (m.get key).isSome

/-- Python `d[key] = v`: replace the binding in place if the key is present,
append it otherwise. -/
def YMap.setKey : YMap → String → YVal → YMap
  | .nil, key, v => .cons key v .nil
  | .cons k w tl, key, v =>
      if k = key then .cons k v tl else .cons k w (tl.setKey key v)

/-- Python `base.update(upd)`: fold `setKey` over the updates in order. -/
def YMap.update : YMap → YMap → YMap
  | base, .nil => base
  | base, .cons k v tl => (base.setKey k v).update tl

/-- Python `del d[key]`: remove the first binding of `key`. -/
def YMap.delKey : YMap → String → YMap
  | .nil, _ => .nil
  | .cons k v tl, key => if k = key then tl else .cons k v (tl.delKey key)

/-- The loop `for entry in dict(data): if data[entry] is None: del data[entry]`
of `KernelRoutingEntry.__init__`: drop every binding whose value is null. -/
def YMap.dropNulls : YMap → YMap
  | .nil => .nil
  | .cons k v tl => if v = YVal.null then tl.dropNulls else .cons k v (tl.dropNulls)

/-- Python truthiness of a YAML value (`if not series: ...` and friends). -/
def YVal.truthy : YVal → Bool
  | .null => false
  | .bool b => b
  | .int n => n != 0
  | .str s => s != ""
  | .list .nil => false
  | .list _ => true
  | .map .nil => false
  | .map _ => true

/-- Python `str()` of a YAML value, as far as the model needs it (used only
to build the default name of a routing entry). -/
def YVal.pyStr : YVal → String
  | .null => "None"
  | .bool b => if b then "True" else "False"
  | .int n => toString n
  | .str s => s
  | .list _ => "[...]"
  | .map _ => "{...}"

/-! ### Basic `YMap` lemmas -/

theorem YMap.get_eq_none_iff : ∀ (m : YMap) (k : String),
    m.get k = none ↔ k ∉ m.keys
  | .nil, k => by simp [YMap.get, YMap.keys]
  | .cons k0 v tl, k => by
    by_cases h : k0 = k <;>
      simp [YMap.get, YMap.keys, h, YMap.get_eq_none_iff tl k, eq_comm]

theorem YMap.get_setKey_self : ∀ (m : YMap) (k : String) (v : YVal),
    (m.setKey k v).get k = some v
  | .nil, k, v => by simp [YMap.setKey, YMap.get]
  | .cons k0 w tl, k, v => by
    by_cases h : k0 = k <;>
      simp [YMap.setKey, YMap.get, h, YMap.get_setKey_self tl k v]

theorem YMap.get_setKey_ne : ∀ (m : YMap) (k k' : String) (v : YVal),
    k ≠ k' → (m.setKey k v).get k' = m.get k'
  | .nil, k, k', v, h => by simp [YMap.setKey, YMap.get, h]
  | .cons k0 w tl, k, k', v, h => by
    by_cases h0 : k0 = k
    · subst h0; simp [YMap.setKey, YMap.get, h]
    · simp only [YMap.setKey, if_neg h0]
      by_cases h1 : k0 = k' <;>
        simp [YMap.get, h1, YMap.get_setKey_ne tl k k' v h]

/-- The `dict.update` against an update map with distinct keys: the updated value
wins, the base value survives otherwise. -/
theorem YMap.get_update : ∀ (base upd : YMap) (k : String),
    upd.keys.Nodup →
    (base.update upd).get k = (upd.get k).orElse (fun _ => base.get k)
  | base, .nil, k, _ => by simp [YMap.update, YMap.get, Option.orElse]
  | base, .cons k0 v tl, k, h => by
    have h0 : k0 ∉ tl.keys := by
      simpa [YMap.keys] using (List.nodup_cons.mp (by simpa [YMap.keys] using h)).1
    have htl : tl.keys.Nodup :=
      (List.nodup_cons.mp (by simpa [YMap.keys] using h)).2
    by_cases hk : k0 = k
    · subst hk
      have hn : tl.get k0 = none := (YMap.get_eq_none_iff tl k0).mpr h0
      simp [YMap.update, YMap.get_update _ tl k0 htl, YMap.get, hn,
        Option.orElse, YMap.get_setKey_self]
    · simp [YMap.update, YMap.get_update _ tl k htl, YMap.get, hk,
        Option.orElse, YMap.get_setKey_ne _ _ _ _ hk]

/-- The `dropNulls` keeps exactly the bindings whose value is not null. -/
theorem YMap.toList_dropNulls : ∀ (m : YMap),
    m.dropNulls.toList = m.toList.filter (fun kv => kv.2 ≠ YVal.null)
  | .nil => by simp [YMap.dropNulls, YMap.toList]
  | .cons k v tl => by
    by_cases h : v = YVal.null <;>
      simp [YMap.dropNulls, YMap.toList, h, YMap.toList_dropNulls tl, List.filter]

theorem YMap.mem_toList_of_get : ∀ (m : YMap) (k : String) (v : YVal),
    m.get k = some v → (k, v) ∈ m.toList
  | .nil, k, v, h => by simp [YMap.get] at h
  | .cons k0 w tl, k, v, h => by
    by_cases h0 : k0 = k
    · subst h0
      simp [YMap.get] at h
      simp [YMap.toList, h]
    · simp [YMap.get, h0] at h
      exact List.mem_cons.mpr (Or.inr (YMap.mem_toList_of_get tl k v h))

/-! ### Entity views (`kernel_series.py`)

Each Python view object carries the parsed data it was built from; the
`_ks` back-reference is passed explicitly to the methods that need it. -/

/-- The `KernelSeriesEntry`: a series view (name plus merged data). -/
structure KernelSeriesEntry where
  name : String
  data : YMap
deriving DecidableEq, Repr

/-- The `KernelSeriesEntry.__init__`: start from `{}`, merge the defaults block
(when it is a mapping; a YAML-null block behaves like Python `None` and is
skipped), then merge the series' own data the same way. -/
def mkSeriesEntry (name : String) (data defaults : YVal) : KernelSeriesEntry :=
  let d1 : YMap := match defaults with
    | .map dm => YMap.nil.update dm
    | _ => .nil
  let d2 : YMap := match data with
    | .map m => d1.update m
    | _ => d1
  ⟨name, d2⟩

/-- The `codename` property: `self._data.get('codename', None)`. -/
def KernelSeriesEntry.codename (e : KernelSeriesEntry) : YVal :=
  (e.data.get "codename").getD .null

/-- The `development` property: `self._data.get('development', False)`. -/
def KernelSeriesEntry.development (e : KernelSeriesEntry) : YVal :=
  (e.data.get "development").getD (.bool false)

/-- The `supported` property: `self._data.get('supported', False)`. -/
def KernelSeriesEntry.supported (e : KernelSeriesEntry) : YVal :=
  (e.data.get "supported").getD (.bool false)

/-- The `esm` property: `self._data.get('esm', False)`. -/
def KernelSeriesEntry.esm (e : KernelSeriesEntry) : YVal :=
  (e.data.get "esm").getD (.bool false)

/-- The `routing_table` property: `self._data.get('routing-table', None)`. -/
def KernelSeriesEntry.routingTable (e : KernelSeriesEntry) : YVal :=
  (e.data.get "routing-table").getD .null

/-- The `KernelSeries` after `__init__` has scanned the parsed document:
the document with the `defaults` key removed, the key of the last series
flagged development, the codename index, and the extracted defaults block. -/
structure KernelSeries where
  data : YMap
  developmentSeries : Option String
  codenameToSeries : List (YVal × String)
  defaultsSeries : YVal
deriving DecidableEq, Repr

/-- Python dict assignment on the codename index (overwrite in place). -/
def setAssoc : List (YVal × String) → YVal → String → List (YVal × String)
  | [], key, v => [(key, v)]
  | (k, w) :: tl, key, v =>
      if k = key then (k, v) :: tl else (k, w) :: setAssoc tl key v

/-- Lookup in the codename index. -/
def getAssoc : List (YVal × String) → YVal → Option String
  | [], _ => none
  | (k, w) :: tl, key => if k = key then some w else getAssoc tl key

/-- The `__init__` scan recording the last series key whose (truthy, mapping)
value has a truthy `development` flag.  Note the scan runs before the
`defaults` key is removed. -/
def ksScanDev : YMap → Option String → Option String
  | .nil, acc => acc
  | .cons k v tl, acc =>
    ksScanDev tl (match v with
      | .map m =>
          if (YVal.map m).truthy &&
              ((m.get "development").getD (.bool false)).truthy
          then some k else acc
      | _ => acc)

/-- The `__init__` scan building `_codename_to_series`. -/
def ksScanCod : YMap → List (YVal × String) → List (YVal × String)
  | .nil, acc => acc
  | .cons k v tl, acc =>
    ksScanCod tl (match v with
      | .map m =>
          if (YVal.map m).truthy then
            match m.get "codename" with
            | some c => setAssoc acc c k
            | none => acc
          else acc
      | _ => acc)

/-- The `KernelSeries.__init__` applied to an already parsed document. -/
def ksInit (doc : YMap) : KernelSeries :=
  { data := doc.delKey "defaults"
    developmentSeries := ksScanDev doc none
    codenameToSeries := ksScanCod doc []
    defaultsSeries := (doc.get "defaults").getD (.map .nil) }

/-- The `series` property: one view per document entry, defaults merged in. -/
def KernelSeries.seriesList (ks : KernelSeries) : List KernelSeriesEntry :=
  ks.data.toList.map (fun kv => mkSeriesEntry kv.1 kv.2 ks.defaultsSeries)

/-- Python truthiness of an optional string argument (`None` and `''` are
falsy, i.e. "not supplied"). -/
def optSupplied : Option String → Bool
  | none => false
  | some s => s != ""

/-- The tail of `lookup_series`: `if series and series not in self._data:
return None` followed by the entry construction (`self._data[series]` raises
`KeyError` when a falsy key is absent). -/
def KernelSeries.finishLookup (ks : KernelSeries) (series : Option String) :
    Except PyErr (Option KernelSeriesEntry) :=
  match series with
  | none => .error .keyError
  | some k =>
      match ks.data.get k with
      | some v => .ok (some (mkSeriesEntry k v ks.defaultsSeries))
      | none => if k ≠ "" then .ok none else .error .keyError

/-- The `development` stage of `lookup_series`: when `series` is still falsy
and `development` was requested, fall back to the recorded development
series (absent one means `return None`). -/
def KernelSeries.lookupStage3 (ks : KernelSeries) (series : Option String)
    (development : Bool) : Except PyErr (Option KernelSeriesEntry) :=
  if optSupplied series = false && development then
    if optSupplied ks.developmentSeries = false then .ok none
    else ks.finishLookup ks.developmentSeries
  else ks.finishLookup series

/-- The `codename` stage of `lookup_series`: when `series` is falsy and a
codename was supplied, an unknown codename means `return None`, a known one
replaces `series` by the mapped key. -/
def KernelSeries.lookupStage2 (ks : KernelSeries) (series codename : Option String)
    (development : Bool) : Except PyErr (Option KernelSeriesEntry) :=
  if optSupplied series = false && optSupplied codename then
    match getAssoc ks.codenameToSeries (.str (codename.getD "")) with
    | none => .ok none
    | some mapped => ks.lookupStage3 (some mapped) development
  else ks.lookupStage3 series development

/-- The `KernelSeries.lookup_series(series, codename, development)`. -/
def KernelSeries.lookupSeries (ks : KernelSeries) (series codename : Option String)
    (development : Bool) : Except PyErr (Option KernelSeriesEntry) :=
  if optSupplied series = false && optSupplied codename = false && development = false
  then .error (.valueError "series/codename/development required")
  else ks.lookupStage2 series codename development

/-- The `KernelSourceEntry`: a source view (owning series, name, data). -/
structure KernelSourceEntry where
  series : KernelSeriesEntry
  name : String
  data : YMap
deriving DecidableEq, Repr

/-- The `KernelSourceEntry.__init__`: `_data = data if data else {}` (a YAML-null
source block becomes `{}`; a non-mapping block has no usable fields). -/
def mkSourceEntry (series : KernelSeriesEntry) (name : String) (data : YVal) :
    KernelSourceEntry :=
  match data with
  | .map m => ⟨series, name, m⟩
  | _ => ⟨series, name, .nil⟩

/-- The `sources` property of a series: one view per entry of the `sources`
mapping (absent or falsy `sources` gives `[]`). -/
def KernelSeriesEntry.sources (e : KernelSeriesEntry) : List KernelSourceEntry :=
  match e.data.get "sources" with
  | some (.map m) => m.toList.map (fun kv => mkSourceEntry e kv.1 kv.2)
  | _ => []

/-- The `lookup_source(source_key)`: absent key (or absent/falsy `sources`)
returns `None`. -/
def KernelSeriesEntry.lookupSource (e : KernelSeriesEntry) (sourceKey : String) :
    Option KernelSourceEntry :=
  match e.data.get "sources" with
  | some (.map m) =>
      match m.get sourceKey with
      | some v => some (mkSourceEntry e sourceKey v)
      | none => none
  | _ => none

/-- The shared tail of `derived_from` and `copy_forward`:
`series = self._ks.lookup_series(series_key); return series.lookup_source(source_key)`.
When the series lookup yields `None`, Python dereferences
`None.lookup_source` (AttributeError); a falsy non-string key makes
`lookup_series` itself raise. -/
def KernelSeries.refLookup (ks : KernelSeries) (seriesKey sourceKey : YVal) :
    Except PyErr (Option KernelSourceEntry) :=
  match seriesKey with
  | .str sk =>
      match ks.lookupSeries (some sk) none false with
      | .error e => .error e
      | .ok none => .error .attributeError
      | .ok (some series) =>
          match sourceKey with
          | .str srck => .ok (series.lookupSource srck)
          | _ => .ok none
  | _ =>
      if seriesKey.truthy then .error .attributeError
      else .error (.valueError "series/codename/development required")

/-- The `derived_from` property: absent key gives `None`; a two-element
`[series-key, source-key]` value is chased through the document. -/
def KernelSourceEntry.derivedFrom? (src : KernelSourceEntry) (ks : KernelSeries) :
    Except PyErr (Option KernelSourceEntry) :=
  match src.data.get "derived-from" with
  | none => .ok none
  | some (.list (.cons a (.cons b .nil))) => ks.refLookup a b
  | some _ => .error (.typeError "cannot unpack")

/-- Result of the `copy_forward` property: Python `None`, the literal `True`
(backwards compatibility), or a source view. -/
inductive CopyFwd where
  | absent
  | flagTrue
  | source (s : KernelSourceEntry)
deriving DecidableEq, Repr

/-- The `copy_forward` property. -/
def KernelSourceEntry.copyForward? (src : KernelSourceEntry) (ks : KernelSeries) :
    Except PyErr CopyFwd :=
  match src.data.get "copy-forward" with
  | none => .ok .absent
  | some (.bool false) => .ok .absent
  | some (.bool true) =>
      match src.derivedFrom? ks with
      | .error e => .error e
      | .ok none => .ok .flagTrue
      | .ok (some d) => .ok (.source d)
  | some (.list (.cons a (.cons b .nil))) =>
      match ks.refLookup a b with
      | .error e => .error e
      | .ok none => .ok .absent
      | .ok (some s) => .ok (.source s)
  | some _ => .error (.typeError "cannot unpack")

/-- The `versions` property, with explicit fuel standing for the recursion
the Python property performs without any cycle detection: `none` models
non-termination within the given fuel, `some r` the Python outcome (a value
or an exception; `.ok .null` is Python returning `None`, and a `True`
`copy_forward` marker makes Python dereference `True.versions`). -/
def versionsFuel (ks : KernelSeries) : Nat → KernelSourceEntry → Option (Except PyErr YVal)
  | 0, _ => none
  | fuel + 1, src =>
    match src.data.get "versions" with
    | some v => some (.ok v)
    | none =>
      match src.derivedFrom? ks with
      | .error e => some (.error e)
      | .ok (some d) => versionsFuel ks fuel d
      | .ok none =>
        match src.copyForward? ks with
        | .error e => some (.error e)
        | .ok (.source s) => versionsFuel ks fuel s
        | .ok .flagTrue => some (.error .attributeError)
        | .ok .absent => some (.ok .null)

/-- Source `development` property:
`self._data.get('development', self.series.development)`. -/
def KernelSourceEntry.development (src : KernelSourceEntry) : YVal :=
  (src.data.get "development").getD src.series.development

/-- Source `supported` property:
`self._data.get('supported', self.series.supported)`. -/
def KernelSourceEntry.supported (src : KernelSourceEntry) : YVal :=
  (src.data.get "supported").getD src.series.supported

/-- The `KernelRoutingEntry`: a routing view (owning source, name, data after
null-dropping). -/
structure KernelRoutingEntry where
  source : KernelSourceEntry
  name : String
  data : YMap
deriving DecidableEq, Repr

/-- The `KernelRoutingEntry.__init__`: a string is a routing alias resolved
against the owning series' routing table (missing table or unknown alias
raise `ValueError`); afterwards every null-valued destination of the
resolved (or inline) mapping is dropped.  Running the null-dropping loop
over a non-mapping raises in Python. -/
def mkRoutingEntry (src : KernelSourceEntry) (data : YVal) :
    Except PyErr KernelRoutingEntry :=
  let name0 := src.series.codename.pyStr ++ ":" ++ src.name
  let resolved : Except PyErr (String × YVal) :=
    match data with
    | .str alias0 =>
        match src.series.routingTable with
        | .null => .error (.valueError ("unable to map routing alias " ++ alias0
            ++ ", no series routing table"))
        | .map tm =>
            match tm.get alias0 with
            | some v => .ok (alias0, v)
            | none => .error (.valueError ("unable to map routing alias " ++ alias0
                ++ ", not listed in series routing table"))
        | _ => .error (.typeError "argument of type is not iterable")
    | _ => .ok (name0, data)
  match resolved with
  | .error e => .error e
  | .ok (nm, d) =>
      match d with
      | .map dm => .ok ⟨src, nm, dm.dropNulls⟩
      | _ => .error (.typeError "object is not iterable")

/-- Source `routing` property: an explicit null gives `None`; an absent key
selects the `esm` alias when the owning series is esm, else `devel` when it
is the development series, else `default`. -/
def KernelSourceEntry.routing? (src : KernelSourceEntry) : Except PyErr (Option KernelRoutingEntry) :=
  let d0 := "default"
  let d1 := if src.series.development.truthy then "devel" else d0
  let dflt := if src.series.esm.truthy then "esm" else d1
  match src.data.get "routing" with
  | some .null => .ok none
  | some d => (mkRoutingEntry src d).map some
  | none => (mkRoutingEntry src (.str dflt)).map some

/-! ### Snap, package and repo views -/

/-- The fixed snap risk ladder. -/
def riskLadder : List String := ["edge", "beta", "candidate", "stable"]

/-- The `promote-to` expansion loop: walk the ladder, keep every risk up to
and including the requested one (an unknown risk keeps the whole ladder). -/
def expandPromoteTo : List String → String → List String
  | [], _ => []
  | r :: rest, p => r :: (if r = p then [] else expandPromoteTo rest p)

/-- Lift a list of strings to a YAML sequence. -/
def strListToY : List String → YList
  | [] => .nil
  | s :: tl => .cons (.str s) (strListToY tl)

/-- The `arches`/`track` conversion loop: `publish_to[arch] = [track]` for
every arch in order (every arch in a kernel-series document is a string). -/
def buildPublishTo (track : YVal) : YList → YMap → YMap
  | .nil, acc => acc
  | .cons a tl, acc =>
      buildPublishTo track tl (match a with
        | .str s => acc.setKey s (.list (.cons track .nil))
        | _ => acc)

/-- The `'stable' in self._data['promote-to']` once the constructor has run: the
value is a sequence (the expanded ladder) or, if supplied directly, possibly
a mapping; it can no longer be a string at this point. -/
def promoteHasStable : YVal → Bool
  | .list l => l.toList.contains (.str "stable")
  | .map m => m.hasKey "stable"
  | _ => false

/-- Step 1 of `KernelSnapEntry.__init__`: convert `arches`/`track` to
`publish-to` form when `publish-to` is not already present (`arches` is a
sequence of strings in every kernel-series document). -/
def snapStep1 (m0 : YMap) : YMap :=
  if m0.hasKey "publish-to" = false then
    match m0.get "arches" with
    | some (.list al) =>
        let track := (m0.get "track").getD (.str "latest")
        m0.setKey "publish-to" (.map (buildPublishTo track al .nil))
    | _ => m0
  else m0

/-- Step 2: convert a legacy `stable` flag to `promote-to` form (`is True`
selects `stable`, any other present value selects `candidate`). -/
def snapStep2 (m1 : YMap) : YMap :=
  if m1.hasKey "promote-to" = false && m1.hasKey "stable" then
    if m1.get "stable" = some (.bool true)
    then m1.setKey "promote-to" (.str "stable")
    else m1.setKey "promote-to" (.str "candidate")
  else m1

/-- Step 3: expand a string `promote-to` (default `edge` when absent) along
the risk ladder; a non-string value is left untouched. -/
def snapStep3 (m2 : YMap) : YMap :=
  match (m2.get "promote-to").getD (.str "edge") with
  | .str p => m2.setKey "promote-to" (.list (strListToY (expandPromoteTo riskLadder p)))
  | _ => m2

/-- Step 4: derive the `stable` flag from `promote-to` when missing. -/
def snapStep4 (m3 : YMap) : YMap :=
  if m3.hasKey "promote-to" && m3.hasKey "stable" = false then
    m3.setKey "stable" (.bool (promoteHasStable ((m3.get "promote-to").getD .null)))
  else m3

/-- The whole normalization block of `KernelSnapEntry.__init__`. -/
def snapNormalize (m0 : YMap) : YMap :=
  snapStep4 (snapStep3 (snapStep2 (snapStep1 m0)))

/-- The `KernelSnapEntry`: a snap view with the normalized data. -/
structure KernelSnapEntry where
  source : KernelSourceEntry
  name : String
  data : YMap
deriving DecidableEq, Repr

/-- The `KernelSnapEntry.__init__`: `_data = data if data else {}`, then the
normalization block. -/
def mkSnapEntry (source : KernelSourceEntry) (name : String) (data : YVal) :
    KernelSnapEntry :=
  match data with
  | .map m => ⟨source, name, snapNormalize m⟩
  | _ => ⟨source, name, snapNormalize .nil⟩

/-- Snap `publish_to` property: `self._data.get('publish-to', None)`. -/
def KernelSnapEntry.publishTo (s : KernelSnapEntry) : YVal :=
  (s.data.get "publish-to").getD .null

/-- Snap `promote_to` property: `self._data.get('promote-to', None)`. -/
def KernelSnapEntry.promoteTo (s : KernelSnapEntry) : YVal :=
  (s.data.get "promote-to").getD .null

/-- Snap `stable` property: `self._data.get('stable', False)`. -/
def KernelSnapEntry.stable (s : KernelSnapEntry) : YVal :=
  (s.data.get "stable").getD (.bool false)

/-- The `KernelPackageEntry`: a package view. -/
structure KernelPackageEntry where
  source : KernelSourceEntry
  name : String
  data : YMap
deriving DecidableEq, Repr

/-- The `KernelPackageEntry.__init__`: `_data = data if data else {}`. -/
def mkPackageEntry (source : KernelSourceEntry) (name : String) (data : YVal) :
    KernelPackageEntry :=
  match data with
  | .map m => ⟨source, name, m⟩
  | _ => ⟨source, name, .nil⟩

/-- The owner a repo view is built from (`snap.repo` or `package.repo`). -/
inductive RepoOwner where
  | pkg (p : KernelPackageEntry)
  | snap (s : KernelSnapEntry)
deriving DecidableEq, Repr

/-- The `KernelRepoEntry`: a repo view. -/
structure KernelRepoEntry where
  owner : RepoOwner
  data : YMap
deriving DecidableEq, Repr

/-- The `KernelRepoEntry.__init__`: a list form `[url]` / `[url, branch]` is
normalized to a mapping (branch defaulting to `master`; a longer list keeps
only the url; an empty list raises IndexError); falsy data becomes `{}`. -/
def mkRepoEntry (owner : RepoOwner) (data : YVal) : Except PyErr KernelRepoEntry :=
  match data with
  | .list .nil => .error (.indexError "list index out of range")
  | .list (.cons u .nil) => .ok ⟨owner, ym [("url", u), ("branch", .str "master")]⟩
  | .list (.cons u (.cons b .nil)) => .ok ⟨owner, ym [("url", u), ("branch", b)]⟩
  | .list (.cons u _) => .ok ⟨owner, ym [("url", u)]⟩
  | .map m => .ok ⟨owner, m⟩
  | _ => .ok ⟨owner, .nil⟩

/-- Snap `repo` property: `if not data: return None` then the construction. -/
def KernelSnapEntry.repo (s : KernelSnapEntry) : Except PyErr (Option KernelRepoEntry) :=
  match s.data.get "repo" with
  | some d => if d.truthy then (mkRepoEntry (.snap s) d).map some else .ok none
  | none => .ok none

/-- Package `repo` property. -/
def KernelPackageEntry.repo (p : KernelPackageEntry) : Except PyErr (Option KernelRepoEntry) :=
  match p.data.get "repo" with
  | some d => if d.truthy then (mkRepoEntry (.pkg p) d).map some else .ok none
  | none => .ok none

/-! ### The `__eq__` methods -/

/-- The `KernelSeriesEntry.__eq__`: name only. -/
def seriesEq (a b : KernelSeriesEntry) : Bool := a.name == b.name

/-- The `KernelSourceEntry.__eq__`: name and owning series. -/
def sourceEq (a b : KernelSourceEntry) : Bool :=
  a.name == b.name && seriesEq a.series b.series

/-- The `KernelPackageEntry.__eq__`: name and owning source. -/
def packageEq (a b : KernelPackageEntry) : Bool :=
  a.name == b.name && sourceEq a.source b.source

/-- The `KernelSnapEntry.__eq__`: name and owning source. -/
def snapEq (a b : KernelSnapEntry) : Bool :=
  a.name == b.name && sourceEq a.source b.source

/-- The `KernelRoutingEntry.__eq__`: `list(self) == list(other)`, i.e. the data
items; neither the name nor the owning source takes part. -/
def routingEq (a b : KernelRoutingEntry) : Bool :=
  a.data.toList == b.data.toList

/-- Repo `url` property (`self._data['url']`; absent url raises KeyError,
which never happens for a normalized repo). -/
def KernelRepoEntry.url (r : KernelRepoEntry) : Option YVal := r.data.get "url"

/-- Repo `branch` property: `self._data.get('branch', None)`. -/
def KernelRepoEntry.branch (r : KernelRepoEntry) : YVal :=
  (r.data.get "branch").getD .null

/-- The `KernelRepoEntry.__eq__`: url and branch only; the owner takes no part. -/
def repoEq (a b : KernelRepoEntry) : Bool :=
  a.url == b.url && a.branch == b.branch

end KSeries

namespace QATrack

/-- The Python exceptions, shared with the kernel-series model. -/
abbrev PyErr := KSeries.PyErr

/-! ### Canonical status lists (`qatracker.py`, AUTO-GENERATED block) -/

def qatracker_build_milestone_status : List String :=
  ["Active", "Re-building", "Disabled", "Superseded", "Ready"]

def qatracker_milestone_status : List String := ["Testing", "Released", "Archived"]

def qatracker_milestone_series_status : List String := ["Active", "Disabled"]

def qatracker_product_status : List String := ["Active", "Disabled"]

def qatracker_testsuite_testcase_status : List String :=
  ["Mandatory", "Disabled", "Run-once", "Optional"]

def qatracker_result_result : List String := ["Failed", "Passed", "In progress"]

def qatracker_result_status : List String := ["Active", "Disabled"]

def qatracker_rebuild_status : List String :=
  ["Requested", "Queued", "Building", "Built", "Published", "Canceled"]

/-- A single status-filter entry: an integer or a string. -/
inductive QAtom where
  | int (n : Int)
  | str (s : String)
deriving DecidableEq, Repr

/-- A status filter argument: an integer, a string, or a list of either. -/
inductive QArg where
  | int (n : Int)
  | str (s : String)
  | list (xs : List QAtom)
deriving DecidableEq, Repr

/-- Python `str.lower()` (ASCII; every canonical status name is ASCII). -/
def pyLower (s : String) : String := ⟨s.data.map Char.toLower⟩

/-- The inner `process` helper of `QATracker._get_valid_id_list`: an
in-range integer is its own index, a string is matched case-insensitively
against the canonical names; anything else raises. -/
def process (statusList : List String) (a : QAtom) : Except PyErr Nat :=
  let valid := statusList.map pyLower
  match a with
  | .int n =>
      if n < 0 ∨ (statusList.length : Int) ≤ n then
        .error (.indexError ("Invalid status: " ++ toString n))
      else .ok n.toNat
  | .str s0 =>
      let s := pyLower s0
      if s ∈ valid then .ok (valid.indexOf s)
      else .error (.indexError ("Invalid status: " ++ s))

/-- One iteration of the `record_filter.add(process(status_list, entry))`
loop of `_get_valid_id_list`. -/
def gvStep (statusList : List String) (acc : Finset Nat) (a : QAtom) :
    Except PyErr (Finset Nat) :=
  (process statusList a).map (fun i => insert i acc)

/-- The `QATracker._get_valid_id_list`: resolve a filter (atom or list of atoms)
to the set of indexes into the canonical status list; the Python function
accumulates into a `set` and raises on the first invalid entry. -/
def getValidIdList (statusList : List String) (status : QArg) :
    Except PyErr (Finset Nat) :=
  match status with
  | .int n => (process statusList (.int n)).map (fun i => {i})
  | .str s => (process statusList (.str s)).map (fun i => {i})
  | .list xs => xs.foldlM (gvStep statusList) ∅

/-! ### The mutating calls (`add_build`, `add_result`)

The XML-RPC server is abstract: a `RemoteOps σ` record carries the remote
calls the client may issue against a server state `σ`.  The client methods
below are the embeddings of the Python methods; they return the Python
outcome together with the server state after the calls they actually
performed. -/

/-- A product record as `add_build` consumes it (id, title, status). -/
structure ProductRec where
  id : Int
  title : String
  status : Int
deriving DecidableEq, Repr

/-- The milestone fields `add_build` reads (`self.id`, `self.status`). -/
structure MilestoneRec where
  id : Int
  status : Int
deriving DecidableEq, Repr

/-- A build record (fields used by `add_build`/`add_result`). -/
structure BuildRec where
  id : Int
  milestoneid : Int
  productid : Int
  version : String
  note : String
  notify : Bool
  status : Int
deriving DecidableEq, Repr

/-- A result record (fields used by `add_result`). -/
structure ResultRec where
  id : Int
  buildid : Int
  testcaseid : Int
  result : Nat
  comment : String
  hardware : String
  status : Int
deriving DecidableEq, Repr

/-- The remote calls issued by `add_build`/`add_result` and the re-queries
(`products.get_list`, `builds.add`, `builds.get_list`, `results.add`,
`results.get_list`). -/
structure RemoteOps (σ : Type) where
  productsGetList : List Nat → σ → List ProductRec
  buildsAdd : Int → Int → String → String → Bool → σ → σ
  buildsGetList : Int → List Nat → σ → List BuildRec
  resultsAdd : Int → Int → Nat → String → String → List (Int × Int) → σ → σ × Int
  resultsGetList : Int → Int → List Nat → σ → List ResultRec

/-- The `product` argument of `add_build`: a `QATrackerProduct`, a name, or
an id. -/
inductive ProductArg where
  | product (p : ProductRec)
  | name (s : String)
  | id (n : Int)
deriving DecidableEq, Repr

/-- The match the `add_build` search loop applies to each product of
`get_products(0)`: `entry.title.lower() == str(product).lower() or
entry.id == product`. -/
def productMatches (product : ProductArg) (entry : ProductRec) : Bool :=
  match product with
  | .product _ => false
  | .name s => pyLower entry.title == pyLower s
  | .id n => pyLower entry.title == pyLower (toString n) || entry.id == n

/-- The `QATrackerMilestone.add_build`: reject inactive milestones, gate on the
access level (`admin` required, but a `None` access level passes), resolve
the product against `get_products(0)`, reject inactive products, issue
`builds.add`, then re-query `get_builds(0)` and return the first build
matching the product id and version. -/
def addBuild {σ : Type} (ops : RemoteOps σ) (access : Option String)
    (milestone : MilestoneRec) (product : ProductArg) (version note : String)
    (notify : Bool) (st : σ) : Except PyErr (Option BuildRec) × σ :=
  if milestone.status ≠ 0 then
    (.error (.typeError "Only active milestones are accepted"), st)
  else if access ≠ some "admin" && access ≠ none then
    (.error (.exception "Access denied, you need admin"), st)
  else
    let bp : Option ProductRec :=
      match product with
      | .product p => some p
      | _ => (ops.productsGetList [0] st).find? (productMatches product)
    match bp with
    | none => (.error (.indexError "Couldnt find product"), st)
    | some p =>
        if p.status ≠ 0 then
          (.error (.typeError "Only active products are accepted"), st)
        else
          let st1 := ops.buildsAdd p.id milestone.id version note notify st
          let newBuild := (ops.buildsGetList milestone.id [0] st1).find?
            (fun e => e.productid == p.id && e.version == version)
          (.ok newBuild, st1)

/-- The `testcase` argument of `add_result`: a `QATrackerTestcase` (carrying
its id) or a bare integer. -/
inductive TestcaseArg where
  | testcase (id : Int)
  | int (n : Int)
deriving DecidableEq, Repr

/-- The per-bug validation loop of `add_result`. -/
def checkBugs : List (Int × Int) → Except PyErr Unit
  | [] => .ok ()
  | (bug, imp) :: tl =>
      if bug ≤ 0 then .error (.valueError "A bugnumber must be a number >= 0")
      else if imp ≠ 0 && imp ≠ 1 then
        .error (.valueError "A bugimportance must be in (0,1)")
      else checkBugs tl

/-- The `QATrackerBuild.add_result`: gate on the access level (`user` or `admin`
required, but a `None` access level passes), resolve the testcase (a falsy
id raises IndexError), reject list results, resolve the result index via
`_get_valid_id_list` (its single element is `build_result[0]`), validate the
bugs dict, issue `results.add`, reject a `-1` id, then re-query
`get_results(testcase, 0)` and return the entry bearing the new id. -/
def addResult {σ : Type} (ops : RemoteOps σ) (access : Option String)
    (build : BuildRec) (testcase : TestcaseArg) (result : QArg)
    (comment hardware : String) (bugs : List (Int × Int)) (st : σ) :
    Except PyErr (Option ResultRec) × σ :=
  if access ≠ some "user" && access ≠ some "admin" && access ≠ none then
    (.error (.exception "Access denied, you need user"), st)
  else
    let bt : Int := match testcase with
      | .testcase i => i
      | .int n => n
    if bt = 0 then (.error (.indexError "Couldnt find testcase"), st)
    else
      let atomRes : Option QAtom := match result with
        | .int n => some (.int n)
        | .str s => some (.str s)
        | .list _ => none
      match atomRes with
      | none => (.error (.typeError "result must be a string or an integer"), st)
      | some a =>
          match process qatracker_result_result a with
          | .error e => (.error e, st)
          | .ok r0 =>
              match checkBugs bugs with
              | .error e => (.error e, st)
              | .ok _ =>
                  let (st1, resultid) :=
                    ops.resultsAdd build.id bt r0 comment hardware bugs st
                  if resultid = -1 then
                    (.error (.exception "Couldnt post your result"), st1)
                  else
                    let newResult := (ops.resultsGetList build.id bt [0] st1).find?
                      (fun e => e.id == resultid)
                    (.ok newResult, st1)

/-- An environment model of the remote QA-tracker server (not repository
code): records live in lists, `add` appends with a fresh id, `get_list`
filters by the requested statuses.  It instantiates the abstract `RemoteOps`
to exercise the client methods end to end. -/
structure SimpleRemote where
  products : List ProductRec
  builds : List BuildRec
  results : List ResultRec
  nextId : Int
deriving DecidableEq, Repr

/-- The remote calls of the `SimpleRemote` environment model. -/
def simpleOps : RemoteOps SimpleRemote where
  productsGetList := fun filt st =>
    st.products.filter (fun p => filt.any (fun n => (n : Int) == p.status))
  buildsAdd := fun productid milestoneid version note notify st =>
    { st with
        builds := st.builds ++
          [{ id := st.nextId, milestoneid := milestoneid, productid := productid,
             version := version, note := note, notify := notify, status := 0 }]
        nextId := st.nextId + 1 }
  buildsGetList := fun milestoneid filt st =>
    st.builds.filter (fun b =>
      b.milestoneid == milestoneid && filt.any (fun n => (n : Int) == b.status))
  resultsAdd := fun buildid testcaseid r comment hardware _bugs st =>
    ({ st with
        results := st.results ++
          [{ id := st.nextId, buildid := buildid, testcaseid := testcaseid,
             result := r, comment := comment, hardware := hardware, status := 0 }]
        nextId := st.nextId + 1 }, st.nextId)
  resultsGetList := fun buildid testcaseid filt st =>
    st.results.filter (fun r =>
      r.buildid == buildid && r.testcaseid == testcaseid &&
        filt.any (fun n => (n : Int) == r.status))

end QATrack

namespace KSeries

/-! ### Lemmas about the snap normalization steps -/

theorem buildPublishTo_get_notMem : ∀ (al : YList) (track : YVal) (acc : YMap) (s : String),
    YVal.str s ∉ al.toList → (buildPublishTo track al acc).get s = acc.get s
  | .nil, _, _, _, _ => rfl
  | .cons a tl, track, acc, s, h => by
    have h1 : YVal.str s ∉ tl.toList := fun hm => h (by simp [YList.toList, hm])
    have h2 : a ≠ YVal.str s := fun hae => h (by simp [YList.toList, hae])
    cases a with
    | str s2 =>
        have hne : s2 ≠ s := fun he => h2 (by rw [he])
        simp [buildPublishTo, buildPublishTo_get_notMem tl track _ s h1,
          YMap.get_setKey_ne _ _ _ _ hne]
    | null => simp [buildPublishTo, buildPublishTo_get_notMem tl track _ s h1]
    | bool b => simp [buildPublishTo, buildPublishTo_get_notMem tl track _ s h1]
    | int n => simp [buildPublishTo, buildPublishTo_get_notMem tl track _ s h1]
    | list xs => simp [buildPublishTo, buildPublishTo_get_notMem tl track _ s h1]
    | map m => simp [buildPublishTo, buildPublishTo_get_notMem tl track _ s h1]

theorem buildPublishTo_get_mem : ∀ (al : YList) (track : YVal) (acc : YMap) (s : String),
    YVal.str s ∈ al.toList →
    (buildPublishTo track al acc).get s = some (.list (.cons track .nil))
  | .nil, _, _, s, h => by simp [YList.toList] at h
  | .cons a tl, track, acc, s, h => by
    by_cases hm : YVal.str s ∈ tl.toList
    · cases a <;> simp [buildPublishTo, buildPublishTo_get_mem tl track _ s hm]
    · have ha : a = YVal.str s := by
        rcases List.mem_cons.mp (by simpa [YList.toList] using h) with h0 | h0
        · exact h0.symm
        · exact absurd h0 hm
      subst ha
      simp [buildPublishTo, buildPublishTo_get_notMem tl track _ s hm,
        YMap.get_setKey_self]

theorem snapStep1_get_other (m : YMap) (k : String) (h : k ≠ "publish-to") :
    (snapStep1 m).get k = m.get k := by
  unfold snapStep1
  split
  · split
    · exact YMap.get_setKey_ne _ _ _ _ (Ne.symm h)
    · rfl
  · rfl

theorem snapStep2_get_other (m : YMap) (k : String) (h : k ≠ "promote-to") :
    (snapStep2 m).get k = m.get k := by
  unfold snapStep2
  split
  · split <;> exact YMap.get_setKey_ne _ _ _ _ (Ne.symm h)
  · rfl

theorem snapStep3_get_other (m : YMap) (k : String) (h : k ≠ "promote-to") :
    (snapStep3 m).get k = m.get k := by
  unfold snapStep3
  split
  · exact YMap.get_setKey_ne _ _ _ _ (Ne.symm h)
  · rfl

theorem snapStep4_get_other (m : YMap) (k : String) (h : k ≠ "stable") :
    (snapStep4 m).get k = m.get k := by
  unfold snapStep4
  split
  · exact YMap.get_setKey_ne _ _ _ _ (Ne.symm h)
  · rfl

theorem snapStep2_get_promote (m1 : YMap)
    (h : m1.get "promote-to" = none ∨ ∃ p, m1.get "promote-to" = some (.str p)) :
    (snapStep2 m1).get "promote-to" = none ∨
      ∃ p, (snapStep2 m1).get "promote-to" = some (.str p) := by
  unfold snapStep2
  split
  · split
    · exact Or.inr ⟨"stable", YMap.get_setKey_self _ _ _⟩
    · exact Or.inr ⟨"candidate", YMap.get_setKey_self _ _ _⟩
  · exact h

theorem snapStep3_get_promote (m2 : YMap)
    (h : m2.get "promote-to" = none ∨ ∃ p, m2.get "promote-to" = some (.str p)) :
    ∃ q, (snapStep3 m2).get "promote-to"
      = some (.list (strListToY (expandPromoteTo riskLadder q))) := by
  rcases h with h | ⟨p, h⟩
  · exact ⟨"edge", by simp [snapStep3, h, YMap.get_setKey_self]⟩
  · exact ⟨p, by simp [snapStep3, h, YMap.get_setKey_self]⟩

theorem YMap.get_eq_none_of_hasKey_false (m : YMap) (k : String)
    (h : m.hasKey k = false) : m.get k = none := by
  cases hx : m.get k with
  | none => rfl
  | some v => simp [YMap.hasKey, hx] at h

theorem snapStep2_of_no_stable (m : YMap) (h : m.hasKey "stable" = false) :
    snapStep2 m = m := by
  simp [snapStep2, h]

/-- The expansion loop always produces an initial segment of the ladder. -/
theorem expandPromoteTo_eq_take : ∀ (l : List String) (p : String),
    ∃ n, expandPromoteTo l p = l.take n
  | [], _ => ⟨0, rfl⟩
  | r :: rest, p => by
    by_cases h : r = p
    · exact ⟨1, by simp [expandPromoteTo, h]⟩
    · obtain ⟨n, hn⟩ := expandPromoteTo_eq_take rest p
      exact ⟨n + 1, by simp [expandPromoteTo, h, hn]⟩

/-- C1 (snap normalization at `KernelSnapEntry` construction):
(i) a snap data mapping with an `arches` list and no `publish-to` gets a
`publish-to` mapping sending every listed arch to the one-element list
holding the `track` value (default `"latest"`); (ii) `{stable: true}` gets
`promote-to == [edge, beta, candidate, stable]` and `stable == true`;
(iii) `{promote-to: "beta"}` gets `promote-to == [edge, beta]` and
`stable == false`; (iv) absence of both `stable` and `promote-to` gives
`promote-to == [edge]`; (v) whenever `promote-to` is supplied as a string
or is absent (the shapes the constructor expands), the resulting
`promote-to` is a prefix (`List.take`) of the fixed risk ladder. -/
theorem c1_snap_normalization :
    (∀ (src : KernelSourceEntry) (nm : String) (m : YMap) (al : YList) (s : String),
        m.hasKey "publish-to" = false →
        m.get "arches" = some (.list al) →
        YVal.str s ∈ al.toList →
        ∃ pm : YMap,
          (mkSnapEntry src nm (.map m)).publishTo = .map pm ∧
          pm.get s = some (.list (.cons ((m.get "track").getD (.str "latest")) .nil)))
    ∧ (∀ (src : KernelSourceEntry) (nm : String),
        (mkSnapEntry src nm (.map (ym [("stable", .bool true)]))).promoteTo
          = .list (strListToY ["edge", "beta", "candidate", "stable"]) ∧
        (mkSnapEntry src nm (.map (ym [("stable", .bool true)]))).stable = .bool true)
    ∧ (∀ (src : KernelSourceEntry) (nm : String),
        (mkSnapEntry src nm (.map (ym [("promote-to", .str "beta")]))).promoteTo
          = .list (strListToY ["edge", "beta"]) ∧
        (mkSnapEntry src nm (.map (ym [("promote-to", .str "beta")]))).stable
          = .bool false)
    ∧ (∀ (src : KernelSourceEntry) (nm : String) (m : YMap),
        m.hasKey "stable" = false → m.hasKey "promote-to" = false →
        (mkSnapEntry src nm (.map m)).promoteTo = .list (strListToY ["edge"]))
    ∧ (∀ (src : KernelSourceEntry) (nm : String) (m : YMap),
        (m.get "promote-to" = none ∨ ∃ p, m.get "promote-to" = some (.str p)) →
        ∃ n, (mkSnapEntry src nm (.map m)).promoteTo
          = .list (strListToY (riskLadder.take n))) := by
  refine ⟨?_, ?_, ?_, ?_, ?_⟩
  · intro src nm m al s hpub harch hmem
    have hpe : (snapNormalize m).get "publish-to"
        = (snapStep1 m).get "publish-to" := by
      rw [snapNormalize, snapStep4_get_other _ _ (by decide),
        snapStep3_get_other _ _ (by decide), snapStep2_get_other _ _ (by decide)]
    have h1 : (snapStep1 m).get "publish-to"
        = some (.map (buildPublishTo ((m.get "track").getD (.str "latest")) al .nil)) := by
      simp [snapStep1, hpub, harch, YMap.get_setKey_self]
    refine ⟨buildPublishTo ((m.get "track").getD (.str "latest")) al .nil, ?_, ?_⟩
    · simp [mkSnapEntry, KernelSnapEntry.publishTo, hpe, h1]
    · exact buildPublishTo_get_mem al _ .nil s hmem
  · intro src nm; exact ⟨rfl, rfl⟩
  · intro src nm; exact ⟨rfl, rfl⟩
  · intro src nm m hst hpr
    have h1s : (snapStep1 m).hasKey "stable" = false := by
      simpa [YMap.hasKey, snapStep1_get_other m "stable" (by decide)] using hst
    have h1p : (snapStep1 m).get "promote-to" = none := by
      rw [snapStep1_get_other m "promote-to" (by decide)]
      exact YMap.get_eq_none_of_hasKey_false m _ hpr
    have h2 : snapStep2 (snapStep1 m) = snapStep1 m :=
      snapStep2_of_no_stable _ h1s
    have h3 : (snapStep3 (snapStep1 m)).get "promote-to"
        = some (.list (strListToY ["edge"])) := by
      rw [snapStep3, h1p]
      simpa using YMap.get_setKey_self (snapStep1 m) "promote-to" _
    show ((snapNormalize m).get "promote-to").getD .null = _
    rw [snapNormalize, h2, snapStep4_get_other _ "promote-to" (by decide), h3]
    rfl
  · intro src nm m h
    have h1 : (snapStep1 m).get "promote-to" = none ∨
        ∃ p, (snapStep1 m).get "promote-to" = some (.str p) := by
      rw [snapStep1_get_other m "promote-to" (by decide)]; exact h
    obtain ⟨q, hq⟩ := snapStep3_get_promote _ (snapStep2_get_promote _ h1)
    obtain ⟨n, hn⟩ := expandPromoteTo_eq_take riskLadder q
    refine ⟨n, ?_⟩
    show ((snapNormalize m).get "promote-to").getD .null = _
    rw [snapNormalize, snapStep4_get_other _ "promote-to" (by decide), hq, hn]
    rfl

/-- A concrete source view used to witness hypothesized theorems. -/
def srcW : KernelSourceEntry :=
  mkSourceEntry (mkSeriesEntry "16.04" (.map .nil) (.map .nil)) "linux" (.map .nil)

/-! ### Lemmas tracing `lookup_series` results to their construction -/

theorem finishLookup_ok_some (ks : KernelSeries) (s : Option String)
    (e : KernelSeriesEntry) (h : ks.finishLookup s = .ok (some e)) :
    ∃ k v, ks.data.get k = some v ∧ e = mkSeriesEntry k v ks.defaultsSeries := by
  match s with
  | none => simp [KernelSeries.finishLookup] at h
  | some k =>
    cases hv : ks.data.get k with
    | some v =>
      refine ⟨k, v, hv, ?_⟩
      simp [KernelSeries.finishLookup, hv] at h
      exact h.symm
    | none =>
      simp only [KernelSeries.finishLookup, hv] at h
      split at h <;> simp at h

theorem lookupStage3_ok_some (ks : KernelSeries) (s : Option String) (d : Bool)
    (e : KernelSeriesEntry) (h : ks.lookupStage3 s d = .ok (some e)) :
    ∃ k v, ks.data.get k = some v ∧ e = mkSeriesEntry k v ks.defaultsSeries := by
  rw [KernelSeries.lookupStage3] at h
  split at h
  · split at h
    · simp at h
    · exact finishLookup_ok_some ks _ e h
  · exact finishLookup_ok_some ks s e h

theorem lookupStage2_ok_some (ks : KernelSeries) (s c : Option String) (d : Bool)
    (e : KernelSeriesEntry) (h : ks.lookupStage2 s c d = .ok (some e)) :
    ∃ k v, ks.data.get k = some v ∧ e = mkSeriesEntry k v ks.defaultsSeries := by
  rw [KernelSeries.lookupStage2] at h
  split at h
  · split at h
    · simp at h
    · exact lookupStage3_ok_some ks _ d e h
  · exact lookupStage3_ok_some ks s d e h

theorem lookupSeries_ok_some (ks : KernelSeries) (s c : Option String) (d : Bool)
    (e : KernelSeriesEntry) (h : ks.lookupSeries s c d = .ok (some e)) :
    ∃ k v, ks.data.get k = some v ∧ e = mkSeriesEntry k v ks.defaultsSeries := by
  rw [KernelSeries.lookupSeries] at h
  split at h
  · simp at h
  · exact lookupStage2_ok_some ks s c d e h

/-- C3 (defaults inheritance): the merged data of a series view resolves
every key to the series' own value when present, else to the defaults
value (stated for the well-formed case of duplicate-free mappings, which
every parsed YAML document satisfies); every view `lookup_series` hands out
is built by that merge; the spec's two `supported` examples; and a source's
`development`/`supported` falls back to the owning series' value exactly
when the source data lacks the key. -/
theorem c3_defaults_inheritance :
    (∀ (nm k : String) (dm m : YMap), dm.keys.Nodup → m.keys.Nodup →
        (mkSeriesEntry nm (.map m) (.map dm)).data.get k
          = (m.get k).orElse (fun _ => dm.get k))
    ∧ (∀ (ks : KernelSeries) (s c : Option String) (d : Bool) (e : KernelSeriesEntry),
        ks.lookupSeries s c d = .ok (some e) →
        ∃ k v, ks.data.get k = some v ∧ e = mkSeriesEntry k v ks.defaultsSeries)
    ∧ (∀ nm : String,
        (mkSeriesEntry nm (.map .nil)
          (.map (ym [("supported", .bool true)]))).supported = .bool true)
    ∧ (∀ nm : String,
        (mkSeriesEntry nm (.map (ym [("supported", .bool false)]))
          (.map (ym [("supported", .bool true)]))).supported = .bool false)
    ∧ (∀ (src : KernelSourceEntry) (v : YVal),
        src.data.get "development" = some v → src.development = v)
    ∧ (∀ src : KernelSourceEntry,
        src.data.get "development" = none → src.development = src.series.development)
    ∧ (∀ (src : KernelSourceEntry) (v : YVal),
        src.data.get "supported" = some v → src.supported = v)
    ∧ (∀ src : KernelSourceEntry,
        src.data.get "supported" = none → src.supported = src.series.supported) := by
  refine ⟨?_, lookupSeries_ok_some, fun nm => rfl, fun nm => rfl, ?_, ?_, ?_, ?_⟩
  · intro nm k dm m hdm hm
    show ((YMap.nil.update dm).update m).get k = _
    rw [YMap.get_update _ m k hm, YMap.get_update _ dm k hdm]
    cases m.get k <;> cases dm.get k <;> rfl
  · intro src v h; simp [KernelSourceEntry.development, h]
  · intro src h; simp [KernelSourceEntry.development, h]
  · intro src v h; simp [KernelSourceEntry.supported, h]
  · intro src h; simp [KernelSourceEntry.supported, h]

theorem c3_defaults_inheritance_witness :
    ((ym [("supported", YVal.bool true)]).keys.Nodup ∧ YMap.nil.keys.Nodup) ∧
    ((mkSeriesEntry "18.04" (.map .nil)
        (.map (ym [("supported", YVal.bool true)]))).data.get "supported"
      = ((YMap.nil.get "supported").orElse
          (fun _ => (ym [("supported", YVal.bool true)]).get "supported"))) ∧
    (srcW.data.get "development" = none ∧ srcW.development = srcW.series.development) :=
  ⟨⟨by decide, by decide⟩,
    c3_defaults_inheritance.1 "18.04" "supported" (ym [("supported", .bool true)])
      .nil (by decide) (by decide),
    by decide, (c3_defaults_inheritance.2.2.2.2.2.1) srcW (by decide)⟩

/-- C4 (routing alias resolution): a string routing value is resolved
against the owning series' routing table (the table entry's contents, with
null destinations dropped); a missing table or an alias absent from it
raises the invalid-argument `ValueError`; an inline mapping also has its
null destinations dropped; and `dropNulls` removes exactly the null-valued
bindings. -/
theorem c4_routing_alias_resolution :
    (∀ (src : KernelSourceEntry) (alias0 : String) (tm vm : YMap),
        src.series.routingTable = .map tm →
        tm.get alias0 = some (.map vm) →
        mkRoutingEntry src (.str alias0) = .ok ⟨src, alias0, vm.dropNulls⟩)
    ∧ (∀ (src : KernelSourceEntry) (alias0 : String),
        src.series.routingTable = .null →
        mkRoutingEntry src (.str alias0)
          = .error (.valueError ("unable to map routing alias " ++ alias0
              ++ ", no series routing table")))
    ∧ (∀ (src : KernelSourceEntry) (alias0 : String) (tm : YMap),
        src.series.routingTable = .map tm →
        tm.get alias0 = none →
        mkRoutingEntry src (.str alias0)
          = .error (.valueError ("unable to map routing alias " ++ alias0
              ++ ", not listed in series routing table")))
    ∧ (∀ (src : KernelSourceEntry) (dm : YMap),
        mkRoutingEntry src (.map dm)
          = .ok ⟨src, src.series.codename.pyStr ++ ":" ++ src.name, dm.dropNulls⟩)
    ∧ (∀ m : YMap,
        m.dropNulls.toList = m.toList.filter (fun kv => kv.2 ≠ YVal.null)) := by
  refine ⟨?_, ?_, ?_, ?_, YMap.toList_dropNulls⟩
  · intro src alias0 tm vm ht hv
    simp [mkRoutingEntry, ht, hv]
  · intro src alias0 ht
    simp [mkRoutingEntry, ht]
  · intro src alias0 tm ht hv
    simp [mkRoutingEntry, ht, hv]
  · intro src dm
    simp [mkRoutingEntry]

/-- A concrete source whose series carries a routing table with a `legacy`
entry holding one null destination. -/
def srcRt : KernelSourceEntry :=
  mkSourceEntry
    (mkSeriesEntry "16.04"
      (.map (ym [("routing-table",
        .map (ym [("legacy",
          .map (ym [("security", .list (yl [.str "sec-main"])),
                    ("proposed", .null)]))]))]))
      (.map .nil))
    "linux" (.map (ym [("routing", .str "legacy")]))

theorem c4_routing_alias_resolution_witness :
    (srcRt.series.routingTable
        = .map (ym [("legacy",
            .map (ym [("security", .list (yl [.str "sec-main"])),
                      ("proposed", .null)]))]) ∧
      (ym [("legacy",
            .map (ym [("security", .list (yl [.str "sec-main"])),
                      ("proposed", .null)]))]).get "legacy"
        = some (.map (ym [("security", .list (yl [.str "sec-main"])),
                          ("proposed", .null)]))) ∧
    mkRoutingEntry srcRt (.str "legacy")
      = .ok ⟨srcRt, "legacy",
          (ym [("security", .list (yl [.str "sec-main"])),
               ("proposed", .null)]).dropNulls⟩ :=
  ⟨⟨by decide, by decide⟩,
    c4_routing_alias_resolution.1 srcRt "legacy"
      (ym [("legacy",
        .map (ym [("security", .list (yl [.str "sec-main"])),
                  ("proposed", .null)]))])
      (ym [("security", .list (yl [.str "sec-main"])), ("proposed", .null)])
      (by decide) (by decide)⟩

/-! ### `lookup_series` selector contract (C5) -/

theorem finishLookup_ne_valueError (ks : KernelSeries) (s : Option String)
    (msg : String) : ks.finishLookup s ≠ .error (.valueError msg) := by
  match s with
  | none => simp [KernelSeries.finishLookup]
  | some k =>
    cases hv : ks.data.get k with
    | some v => simp [KernelSeries.finishLookup, hv]
    | none =>
      simp only [KernelSeries.finishLookup, hv]
      split <;> simp

theorem lookupStage3_ne_valueError (ks : KernelSeries) (s : Option String)
    (d : Bool) (msg : String) :
    ks.lookupStage3 s d ≠ .error (.valueError msg) := by
  rw [KernelSeries.lookupStage3]
  split
  · split
    · simp
    · exact finishLookup_ne_valueError ks _ msg
  · exact finishLookup_ne_valueError ks s msg

theorem lookupStage2_ne_valueError (ks : KernelSeries) (s c : Option String)
    (d : Bool) (msg : String) :
    ks.lookupStage2 s c d ≠ .error (.valueError msg) := by
  rw [KernelSeries.lookupStage2]
  split
  · split
    · simp
    · exact lookupStage3_ne_valueError ks _ d msg
  · exact lookupStage3_ne_valueError ks s d msg

/-- The two-series document of the spec's `lookup_series` examples. -/
def docC5 : YMap :=
  ym [("16.04", .map (ym [("codename", .str "xenial")])),
      ("18.04", .map (ym [("codename", .str "bionic"), ("development", .bool true)]))]

/-- The parsed `KernelSeries` over `docC5`. -/
def ksC5 : KernelSeries := ksInit docC5

/-- C5 counterexample: the claim demands that *exactly one* selector be
supplied or the call fail with invalid-argument; here both the series key
and a codename are supplied (both truthy) and `lookup_series` nevertheless
succeeds, returning the series view selected by the key. -/
theorem c5_lookup_selectors_counterexample :
    optSupplied (some "16.04") = true ∧ optSupplied (some "xenial") = true ∧
    ksC5.lookupSeries (some "16.04") (some "xenial") false
      = .ok (some (mkSeriesEntry "16.04"
          (.map (ym [("codename", .str "xenial")])) (.map .nil))) := by
  decide

/-- C5 amended (`lookup_series` selector contract): *at least one* of
the three selectors must be supplied — a call supplying none raises the
invalid-argument `ValueError`, a call supplying any selector never raises
it — and a supplied codename that is not in the document's codename index
returns an absent result (`None`), not an error. -/
theorem c5_lookup_selectors :
    (∀ (ks : KernelSeries) (s c : Option String),
        optSupplied s = false → optSupplied c = false →
        ks.lookupSeries s c false
          = .error (.valueError "series/codename/development required"))
    ∧ (∀ (ks : KernelSeries) (s c : Option String) (d : Bool),
        (optSupplied s || optSupplied c || d) = true →
        ks.lookupSeries s c d
          ≠ .error (.valueError "series/codename/development required"))
    ∧ (∀ (ks : KernelSeries) (c : String),
        c ≠ "" →
        getAssoc ks.codenameToSeries (.str c) = none →
        ks.lookupSeries none (some c) false = .ok none) := by
  refine ⟨?_, ?_, ?_⟩
  · intro ks s c hs hc
    simp [KernelSeries.lookupSeries, hs, hc]
  · intro ks s c d hsup
    rw [KernelSeries.lookupSeries]
    split
    · next hg =>
        simp only [Bool.and_eq_true, decide_eq_true_eq] at hg
        rw [hg.1.1, hg.1.2, hg.2] at hsup
        simp at hsup
    · exact lookupStage2_ne_valueError ks s c d _
  · intro ks c hc hassoc
    have hcs : optSupplied (some c) = true := by simp [optSupplied, hc]
    simp [KernelSeries.lookupSeries, KernelSeries.lookupStage2, hcs, hassoc,
      optSupplied, hc]

theorem c5_lookup_selectors_witness :
    (ksC5.lookupSeries none none false
        = .error (.valueError "series/codename/development required")) ∧
    ("zesty" ≠ "" ∧ getAssoc ksC5.codenameToSeries (.str "zesty") = none) ∧
    ksC5.lookupSeries none (some "zesty") false = .ok none :=
  ⟨c5_lookup_selectors.1 ksC5 none none (by decide) (by decide),
    ⟨by decide, by decide⟩,
    c5_lookup_selectors.2.2 ksC5 "zesty" (by decide) (by decide)⟩

/-- C10 (implicit default routing): a source without a `routing` key
resolves the alias `esm` when the owning series has a truthy esm flag (even
when it is also the development series), else `devel` when the series is
the development one, else `default`; an explicit null `routing` yields an
absent routing instead of a constructed entry. -/
theorem c10_implicit_default_routing :
    (∀ src : KernelSourceEntry,
        src.data.get "routing" = none →
        src.series.esm.truthy = true →
        src.routing? = (mkRoutingEntry src (.str "esm")).map some)
    ∧ (∀ src : KernelSourceEntry,
        src.data.get "routing" = none →
        src.series.esm.truthy = false →
        src.series.development.truthy = true →
        src.routing? = (mkRoutingEntry src (.str "devel")).map some)
    ∧ (∀ src : KernelSourceEntry,
        src.data.get "routing" = none →
        src.series.esm.truthy = false →
        src.series.development.truthy = false →
        src.routing? = (mkRoutingEntry src (.str "default")).map some)
    ∧ (∀ src : KernelSourceEntry,
        src.data.get "routing" = some .null → src.routing? = .ok none) := by
  refine ⟨?_, ?_, ?_, ?_⟩
  · intro src h hesm
    simp [KernelSourceEntry.routing?, h, hesm]
  · intro src h hesm hdev
    simp [KernelSourceEntry.routing?, h, hesm, hdev]
  · intro src h hesm hdev
    simp [KernelSourceEntry.routing?, h, hesm, hdev]
  · intro src h
    simp [KernelSourceEntry.routing?, h]

theorem c10_implicit_default_routing_witness :
    (srcW.data.get "routing" = none ∧ srcW.series.esm.truthy = false ∧
      srcW.series.development.truthy = false) ∧
    srcW.routing? = (mkRoutingEntry srcW (.str "default")).map some :=
  ⟨⟨by decide, by decide, by decide⟩,
    c10_implicit_default_routing.2.2.1 srcW (by decide) (by decide) (by decide)⟩

/-- The snap data of the specification example
`{arches: [amd64, arm64], track: "18"}`. -/
def snapDataW : YMap :=
  ym [("arches", .list (yl [.str "amd64", .str "arm64"])), ("track", .str "18")]

theorem c1_snap_normalization_witness :
    (snapDataW.hasKey "publish-to" = false ∧
      snapDataW.get "arches" = some (.list (yl [.str "amd64", .str "arm64"])) ∧
      YVal.str "amd64" ∈ (yl [.str "amd64", .str "arm64"]).toList) ∧
    (∃ pm : YMap,
      (mkSnapEntry srcW "pc-kernel" (.map snapDataW)).publishTo = .map pm ∧
      pm.get "amd64" = some (.list (.cons ((snapDataW.get "track").getD (.str "latest")) .nil))) ∧
    (∃ n, (mkSnapEntry srcW "pc-kernel" (.map snapDataW)).promoteTo
      = .list (strListToY (riskLadder.take n))) :=
  ⟨⟨by decide, by decide, by decide⟩,
    c1_snap_normalization.1 srcW "pc-kernel" snapDataW
      (yl [.str "amd64", .str "arm64"]) "amd64"
      (by decide) (by decide) (by decide),
    (c1_snap_normalization.2.2.2.2) srcW "pc-kernel" snapDataW (Or.inl (by decide))⟩

/-! ### C2: `versions` chain resolution -/

/-- The spec's two-series end-to-end document: series `B` is the
development series and its source derives from series `A`'s source. -/
def docC2 : YMap :=
  ym [("A", .map (ym [("sources", .map (ym [("linux",
          .map (ym [("versions", .list (yl [.str "4.4", .str "4.15"]))]))]))])),
      ("B", .map (ym [("development", .bool true),
        ("sources", .map (ym [("linux",
          .map (ym [("derived-from", .list (yl [.str "A", .str "linux"]))]))]))]))]

/-- The parsed `KernelSeries` over `docC2`. -/
def ksC2 : KernelSeries := ksInit docC2

/-- Series `B` of `docC2` as `lookup_series(development=True)` builds it. -/
def seriesBC2 : KernelSeriesEntry :=
  mkSeriesEntry "B"
    (.map (ym [("development", .bool true),
      ("sources", .map (ym [("linux",
        .map (ym [("derived-from", .list (yl [.str "A", .str "linux"]))]))]))]))
    (.map .nil)

/-- Source `linux` of series `B` of `docC2`. -/
def srcBC2 : KernelSourceEntry :=
  mkSourceEntry seriesBC2 "linux"
    (.map (ym [("derived-from", .list (yl [.str "A", .str "linux"]))]))

/-- Source `linux` of series `A` of `docC2` (explicit versions list). -/
def srcAC2 : KernelSourceEntry :=
  mkSourceEntry (mkSeriesEntry "A"
      (.map (ym [("sources", .map (ym [("linux",
        .map (ym [("versions", .list (yl [.str "4.4", .str "4.15"]))]))]))]))
      (.map .nil))
    "linux" (.map (ym [("versions", .list (yl [.str "4.4", .str "4.15"]))]))

/-- C2 (`versions` resolution chain): an explicit `versions` value is
returned as is; otherwise a resolvable `derived-from` source is consulted;
otherwise a `copy-forward` source; otherwise the result is absent (`None`).
End to end, on `docC2`, `lookup_series(development=True)` yields series `B`,
its first source is `B`'s `linux`, and its `versions` equal series `A`'s
versions list unchanged. -/
theorem c2_versions_resolution :
    (∀ (ks : KernelSeries) (src : KernelSourceEntry) (fuel : Nat) (v : YVal),
        src.data.get "versions" = some v →
        versionsFuel ks (fuel + 1) src = some (.ok v))
    ∧ (∀ (ks : KernelSeries) (src : KernelSourceEntry) (fuel : Nat)
          (d : KernelSourceEntry),
        src.data.get "versions" = none →
        src.derivedFrom? ks = .ok (some d) →
        versionsFuel ks (fuel + 1) src = versionsFuel ks fuel d)
    ∧ (∀ (ks : KernelSeries) (src : KernelSourceEntry) (fuel : Nat)
          (s2 : KernelSourceEntry),
        src.data.get "versions" = none →
        src.derivedFrom? ks = .ok none →
        src.copyForward? ks = .ok (.source s2) →
        versionsFuel ks (fuel + 1) src = versionsFuel ks fuel s2)
    ∧ (∀ (ks : KernelSeries) (src : KernelSourceEntry) (fuel : Nat),
        src.data.get "versions" = none →
        src.derivedFrom? ks = .ok none →
        src.copyForward? ks = .ok .absent →
        versionsFuel ks (fuel + 1) src = some (.ok .null))
    ∧ (ksC2.lookupSeries none none true = .ok (some seriesBC2) ∧
        seriesBC2.sources.head? = some srcBC2 ∧
        versionsFuel ksC2 2 srcBC2
          = some (.ok (.list (yl [.str "4.4", .str "4.15"])))) := by
  refine ⟨?_, ?_, ?_, ?_, rfl, rfl, rfl⟩
  · intro ks src fuel v h
    simp [versionsFuel, h]
  · intro ks src fuel d h hd
    simp [versionsFuel, h, hd]
  · intro ks src fuel s2 h hd hc
    simp [versionsFuel, h, hd, hc]
  · intro ks src fuel h hd hc
    simp [versionsFuel, h, hd, hc]

theorem c2_versions_resolution_witness :
    (srcAC2.data.get "versions"
        = some (.list (yl [.str "4.4", .str "4.15"]))) ∧
    versionsFuel ksC2 1 srcAC2
      = some (.ok (.list (yl [.str "4.4", .str "4.15"]))) :=
  ⟨by decide,
    c2_versions_resolution.1 ksC2 srcAC2 0
      (.list (yl [.str "4.4", .str "4.15"])) (by decide)⟩

/-! ### C9: structural equality of views -/

theorem YMap.toList_inj : ∀ (a b : YMap), a.toList = b.toList → a = b
  | .nil, .nil, _ => rfl
  | .nil, .cons _ _ _, h => by simp [YMap.toList] at h
  | .cons _ _ _, .nil, h => by simp [YMap.toList] at h
  | .cons k v tl, .cons k2 v2 tl2, h => by
      simp only [YMap.toList, List.cons.injEq, Prod.mk.injEq] at h
      obtain ⟨⟨h1, h2⟩, h3⟩ := h
      rw [h1, h2, YMap.toList_inj tl tl2 h3]

theorem mkSourceEntry_name (s : KernelSeriesEntry) (n : String) (d : YVal) :
    (mkSourceEntry s n d).name = n := by cases d <;> rfl

theorem mkSourceEntry_series (s : KernelSeriesEntry) (n : String) (d : YVal) :
    (mkSourceEntry s n d).series = s := by cases d <;> rfl

theorem lookupSource_shape (e : KernelSeriesEntry) (k : String)
    (src : KernelSourceEntry) (h : e.lookupSource k = some src) :
    src.name = k ∧ src.series = e := by
  rw [KernelSeriesEntry.lookupSource] at h
  split at h
  · split at h
    · cases h with
      | refl => exact ⟨mkSourceEntry_name .., mkSourceEntry_series ..⟩
    · exact absurd h (by simp)
  · exact absurd h (by simp)

/-- A snap of one source carrying the repo `[git://x]`. -/
def snapR1 : KernelSnapEntry :=
  mkSnapEntry srcW "pc-kernel" (.map (ym [("repo", .list (yl [.str "git://x"]))]))

/-- A snap of a different source (different name and owning series)
carrying the same repo `[git://x]`. -/
def snapR2 : KernelSnapEntry :=
  mkSnapEntry srcRt "other-kernel" (.map (ym [("repo", .list (yl [.str "git://x"]))]))

/-- The repo view `snapR1.repo` constructs. -/
def repoR1 : KernelRepoEntry :=
  ⟨.snap snapR1, ym [("url", .str "git://x"), ("branch", .str "master")]⟩

/-- The repo view `snapR2.repo` constructs. -/
def repoR2 : KernelRepoEntry :=
  ⟨.snap snapR2, ym [("url", .str "git://x"), ("branch", .str "master")]⟩

/-- C9 counterexample: the claim says equality of two views of the same
kind holds only if their owning parents are equal.  These two repo views
belong to different owners (different snaps, of different sources), yet
`KernelRepoEntry.__eq__` — which compares url and branch only — declares
them equal. -/
theorem c9_structural_equality_counterexample :
    snapR1.repo = .ok (some repoR1) ∧ snapR2.repo = .ok (some repoR2) ∧
    repoEq repoR1 repoR2 = true ∧ repoR1.owner ≠ repoR2.owner := by
  refine ⟨rfl, rfl, rfl, by decide⟩

/-- C9 amended (structural equality of entity views): equality is
structural and never requires identity, but what it compares depends on the
kind — name only for Series; name plus owning parent for Source, Package
and Snap; content for RoutingEntry (the data items) and RepoEntry (url and
branch, ignoring the owner).  Two source views of the same underlying
entity obtained through different accesses always compare equal. -/
theorem c9_structural_equality :
    (∀ a b : KernelSeriesEntry, seriesEq a b = true ↔ a.name = b.name)
    ∧ (∀ a b : KernelSourceEntry,
        sourceEq a b = true ↔ (a.name = b.name ∧ a.series.name = b.series.name))
    ∧ (∀ a b : KernelPackageEntry,
        packageEq a b = true ↔ (a.name = b.name ∧ sourceEq a.source b.source = true))
    ∧ (∀ a b : KernelSnapEntry,
        snapEq a b = true ↔ (a.name = b.name ∧ sourceEq a.source b.source = true))
    ∧ (∀ a b : KernelRoutingEntry, routingEq a b = true ↔ a.data = b.data)
    ∧ (∀ a b : KernelRepoEntry,
        repoEq a b = true ↔ (a.url = b.url ∧ a.branch = b.branch))
    ∧ (∀ (s1 s2 : KernelSeriesEntry) (k : String) (e1 e2 : KernelSourceEntry),
        s1.name = s2.name →
        s1.lookupSource k = some e1 → s2.lookupSource k = some e2 →
        sourceEq e1 e2 = true) := by
  refine ⟨?_, ?_, ?_, ?_, ?_, ?_, ?_⟩
  · intro a b; simp [seriesEq]
  · intro a b; simp [sourceEq, seriesEq]
  · intro a b; simp [packageEq]
  · intro a b; simp [snapEq]
  · intro a b
    constructor
    · intro h
      exact YMap.toList_inj _ _ (by simpa [routingEq] using h)
    · intro h; simp [routingEq, h]
  · intro a b; simp [repoEq]
  · intro s1 s2 k e1 e2 hn h1 h2
    obtain ⟨hn1, hs1⟩ := lookupSource_shape s1 k e1 h1
    obtain ⟨hn2, hs2⟩ := lookupSource_shape s2 k e2 h2
    simp [sourceEq, seriesEq, hn1, hn2, hs1, hs2, hn]

theorem c9_structural_equality_witness :
    (seriesBC2.lookupSource "linux" = some srcBC2 ∧
      seriesBC2.lookupSource "linux" = some srcBC2) ∧
    sourceEq srcBC2 srcBC2 = true :=
  ⟨⟨by decide, by decide⟩,
    c9_structural_equality.2.2.2.2.2.2 seriesBC2 seriesBC2 "linux"
      srcBC2 srcBC2 rfl (by decide) (by decide)⟩

end KSeries

namespace QATrack

/-! ### C6: status-filter resolution -/

theorem exceptMap_ok {ε α β : Type} (f : α → β) (a : α) :
    (Except.ok a : Except ε α).map f = .ok (f a) := rfl

theorem exceptMap_error {ε α β : Type} (f : α → β) (e : ε) :
    (Except.error e : Except ε α).map f = .error e := rfl

theorem exceptBind_ok {ε α β : Type} (f : α → Except ε β) (a : α) :
    ((Except.ok a : Except ε α) >>= f) = f a := rfl

theorem exceptBind_error {ε α β : Type} (f : α → Except ε β) (e : ε) :
    ((Except.error e : Except ε α) >>= f) = .error e := rfl

/-- Folding set insertion over the processed atoms agrees with collecting
all processed indexes first and taking the resulting set. -/
theorem foldlM_insert_eq_mapM (sl : List String) :
    ∀ (xs : List QAtom) (acc : Finset Nat),
    xs.foldlM (gvStep sl) acc
      = (xs.mapM (process sl)).map (fun l => acc ∪ l.toFinset)
  | [], acc => by
    rw [List.foldlM_nil, List.mapM_nil]
    show Except.ok acc = (Except.ok ([] : List Nat)).map _
    rw [exceptMap_ok]
    simp
  | x :: xs, acc => by
    rw [List.foldlM_cons, List.mapM_cons]
    cases hp : process sl x with
    | error e =>
        simp only [gvStep, hp, exceptMap_error, exceptBind_error]
    | ok i =>
        simp only [gvStep, hp, exceptMap_ok, exceptBind_ok]
        rw [foldlM_insert_eq_mapM sl xs (insert i acc)]
        cases hm : xs.mapM (process sl) with
        | error e => rfl
        | ok l =>
            simp [exceptMap_ok, exceptBind_ok, Finset.insert_union,
              Finset.union_insert]

/-- C6 (status-filter resolution in `_get_valid_id_list`, shared by the
`get_*` read operations): a status name is matched case-insensitively and
resolves to its position in the canonical list, an in-range integer to
itself, and a list of either to the set of all resolved indexes; an
integer outside `[0, length)` or an unrecognized string raises the
invalid-argument `IndexError`. -/
theorem c6_status_filter_resolution :
    (∀ (sl : List String) (s : String),
        pyLower s ∈ sl.map pyLower →
        getValidIdList sl (.str s) = .ok {(sl.map pyLower).indexOf (pyLower s)})
    ∧ (∀ (sl : List String) (n : Nat), n < sl.length →
        getValidIdList sl (.int (n : Int)) = .ok {n})
    ∧ (∀ (sl : List String) (xs : List QAtom),
        getValidIdList sl (.list xs)
          = (xs.mapM (process sl)).map List.toFinset)
    ∧ (∀ (sl : List String) (n : Int), n < 0 ∨ (sl.length : Int) ≤ n →
        getValidIdList sl (.int n)
          = .error (.indexError ("Invalid status: " ++ toString n)))
    ∧ (∀ (sl : List String) (s : String), pyLower s ∉ sl.map pyLower →
        getValidIdList sl (.str s)
          = .error (.indexError ("Invalid status: " ++ pyLower s))) := by
  refine ⟨?_, ?_, ?_, ?_, ?_⟩
  · intro sl s h
    simp [getValidIdList, process, h, exceptMap_ok]
  · intro sl n h
    have hcond : ¬((n : Int) < 0 ∨ (sl.length : Int) ≤ (n : Int)) := by
      push_neg
      constructor <;> omega
    simp only [getValidIdList, process]
    rw [if_neg hcond, exceptMap_ok]
    simp
  · intro sl xs
    rw [getValidIdList, foldlM_insert_eq_mapM sl xs ∅]
    cases hm : xs.mapM (process sl) with
    | error e => rw [exceptMap_error, exceptMap_error]
    | ok l => rw [exceptMap_ok, exceptMap_ok]; simp
  · intro sl n h
    simp [getValidIdList, process, h, exceptMap_error]
  · intro sl s h
    simp [getValidIdList, process, h, exceptMap_error]

theorem c6_status_filter_resolution_witness :
    (pyLower "PASSED" ∈ qatracker_result_result.map pyLower ∧
      getValidIdList qatracker_result_result (.str "PASSED") = .ok {1}) ∧
    ((2 : Nat) < qatracker_milestone_status.length ∧
      getValidIdList qatracker_milestone_status (.int 2) = .ok {2}) ∧
    (((7 : Int) < 0 ∨ (qatracker_rebuild_status.length : Int) ≤ 7) ∧
      getValidIdList qatracker_rebuild_status (.int 7)
        = .error (.indexError ("Invalid status: " ++ toString (7 : Int)))) := by
  refine ⟨⟨by decide, ?_⟩, ⟨by decide, ?_⟩, ⟨by decide, ?_⟩⟩
  · have h := c6_status_filter_resolution.1 qatracker_result_result "PASSED"
      (by decide)
    rwa [show (qatracker_result_result.map pyLower).indexOf (pyLower "PASSED") = 1
      from by decide] at h
  · exact c6_status_filter_resolution.2.1 qatracker_milestone_status 2 (by decide)
  · exact c6_status_filter_resolution.2.2.2.1 qatracker_rebuild_status 7
      (Or.inr (by decide))

end QATrack

namespace QATrack

/-! ### C7: gating and re-query of the mutating calls -/

/-- A server state with one active product, no builds, no results. -/
def st0 : SimpleRemote :=
  { products := [{ id := 1, title := "P", status := 0 }]
    builds := [], results := [], nextId := 10 }

/-- An active milestone. -/
def mil0 : MilestoneRec := { id := 5, status := 0 }

/-- The build the `SimpleRemote` server creates for the counterexample call. -/
def build10 : BuildRec :=
  { id := 10, milestoneid := 5, productid := 1, version := "1.0", note := "",
    notify := true, status := 0 }

/-- C7 counterexample: the claim says a call whose access level does not
grant the required privilege (`admin` for `add_build`) raises
permission-denied before the remote call.  A `None` access level grants no
privilege, yet the gate `access != "admin" and access is not None` lets it
through: the remote mutation is performed (the server state changes) and the
call succeeds. -/
theorem c7_mutating_gate_counterexample :
    (none : Option String) ≠ some "admin" ∧
    addBuild simpleOps none mil0 (.name "p") "1.0" "" true st0
      = (.ok (some build10),
         { products := [{ id := 1, title := "P", status := 0 }]
           builds := [build10], results := [], nextId := 11 }) ∧
    ((addBuild simpleOps none mil0 (.name "p") "1.0" "" true st0).2 ≠ st0) := by
  refine ⟨by decide, by decide, by decide⟩

/-- C7 amended (mutating-call gating and re-query): when the access
level is a string other than the required privilege (`admin` for
`add_build`; `user`/`admin` for `add_result`), the call raises the
permission-denied exception and the server state is untouched (no remote
call is attempted); a `None` access level bypasses the gate.  On success
(shown against the `SimpleRemote` server model), the method issues the
mutation and then re-queries the affected collection — active builds of the
milestone, results of the testcase — returning the newly created record
found there, not the remote call's return value. -/
theorem c7_mutating_gate_and_requery :
    (∀ (σ : Type) (ops : RemoteOps σ) (a : String) (milestone : MilestoneRec)
        (product : ProductArg) (version note : String) (notify : Bool) (st : σ),
        milestone.status = 0 → a ≠ "admin" →
        addBuild ops (some a) milestone product version note notify st
          = (.error (.exception "Access denied, you need admin"), st))
    ∧ (∀ (σ : Type) (ops : RemoteOps σ) (a : String) (build : BuildRec)
        (testcase : TestcaseArg) (result : QArg) (comment hardware : String)
        (bugs : List (Int × Int)) (st : σ),
        a ≠ "user" → a ≠ "admin" →
        addResult ops (some a) build testcase result comment hardware bugs st
          = (.error (.exception "Access denied, you need user"), st))
    ∧ (∀ (milestone : MilestoneRec) (p : ProductRec) (version note : String)
        (notify : Bool) (st : SimpleRemote),
        milestone.status = 0 → p.status = 0 →
        (∀ b ∈ st.builds,
          ¬(b.milestoneid = milestone.id ∧ b.status = 0 ∧
            b.productid = p.id ∧ b.version = version)) →
        addBuild simpleOps (some "admin") milestone (.product p) version note notify st
          = (.ok (some { id := st.nextId, milestoneid := milestone.id,
                         productid := p.id, version := version, note := note,
                         notify := notify, status := 0 }),
             { st with
                builds := st.builds ++
                  [{ id := st.nextId, milestoneid := milestone.id,
                     productid := p.id, version := version, note := note,
                     notify := notify, status := 0 }]
                nextId := st.nextId + 1 }))
    ∧ (∀ (build : BuildRec) (t : Int) (rn : Nat) (comment hardware : String)
        (st : SimpleRemote),
        t ≠ 0 → (rn : Int) < qatracker_result_result.length →
        st.nextId ≠ -1 →
        (∀ r ∈ st.results, r.id ≠ st.nextId) →
        addResult simpleOps (some "user") build (.int t) (.int (rn : Int))
            comment hardware [] st
          = (.ok (some { id := st.nextId, buildid := build.id, testcaseid := t,
                         result := rn, comment := comment, hardware := hardware,
                         status := 0 }),
             { st with
                results := st.results ++
                  [{ id := st.nextId, buildid := build.id, testcaseid := t,
                     result := rn, comment := comment, hardware := hardware,
                     status := 0 }]
                nextId := st.nextId + 1 })) := by
  refine ⟨?_, ?_, ?_, ?_⟩
  · intro σ ops a milestone product version note notify st hm ha
    simp [addBuild, hm, ha]
  · intro σ ops a build testcase result comment hardware bugs st h1 h2
    simp [addResult, h1, h2]
  · intro milestone p version note notify st hm hp hnew
    simp only [addBuild, hm, hp]
    norm_num
    simp only [simpleOps]
    rw [List.filter_append, List.find?_append]
    have hold : ((st.builds.filter (fun b =>
        b.milestoneid == milestone.id &&
          ([0] : List Nat).any (fun n => (n : Int) == b.status))).find?
        (fun e => e.productid == p.id && e.version == version)) = none := by
      rw [List.find?_eq_none]
      intro b hb
      have hmem := (List.mem_filter.mp hb).1
      have hflt := (List.mem_filter.mp hb).2
      simp only [List.any_cons, List.any_nil, Bool.or_false, Bool.and_eq_true,
        beq_iff_eq, Nat.cast_zero] at hflt
      have := hnew b hmem
      simp only [Bool.and_eq_true, beq_iff_eq]
      rintro ⟨hpid, hver⟩
      exact this ⟨hflt.1, hflt.2.symm, hpid, hver⟩
    rw [hold]
    simp
  · intro build t rn comment hardware st ht hr hnid hfresh
    simp only [addResult]
    norm_num [ht]
    have hproc : process qatracker_result_result (.int (rn : Int)) = .ok rn := by
      simp only [process]
      rw [if_neg (by push_neg; constructor <;> omega)]
      simp
    rw [hproc]
    simp only [checkBugs]
    simp only [simpleOps]
    norm_num [hnid]
    exact Or.inr (fun x hx _ _ _ => hfresh x hx)

end QATrack

namespace QATrack

/-- The product record living in `st0`. -/
def prodW : ProductRec := { id := 1, title := "P", status := 0 }

theorem c7_mutating_gate_and_requery_witness :
    (mil0.status = 0 ∧ prodW.status = 0 ∧
      (∀ b ∈ st0.builds, ¬(b.milestoneid = mil0.id ∧ b.status = 0 ∧
        b.productid = prodW.id ∧ b.version = "1.0"))) ∧
    addBuild simpleOps (some "admin") mil0 (.product prodW) "1.0" "" true st0
      = (.ok (some { id := st0.nextId, milestoneid := mil0.id,
                     productid := prodW.id, version := "1.0", note := "",
                     notify := true, status := 0 }),
         { st0 with
            builds := st0.builds ++
              [{ id := st0.nextId, milestoneid := mil0.id, productid := prodW.id,
                 version := "1.0", note := "", notify := true, status := 0 }]
            nextId := st0.nextId + 1 }) :=
  ⟨⟨rfl, rfl, by decide⟩,
    c7_mutating_gate_and_requery.2.2.1 mil0 prodW "1.0" "" true st0
      rfl rfl (by decide)⟩

end QATrack

namespace KSeries

/-! ### C8: termination of the derivation chase -/

/-- Every source view of the document: the sources of every series view. -/
def KernelSeries.allSources (ks : KernelSeries) : List KernelSourceEntry :=
  (ks.seriesList.map (fun s => s.sources)).flatten

/-- The single recursive step the `versions` property performs: the source
whose `versions` the property recurses into (`derived_from` first, else a
`copy_forward` source), or `none` when the recursion stops — with an
explicit value, with an absent result, or with an exception. -/
def chaseNext (ks : KernelSeries) (src : KernelSourceEntry) :
    Option KernelSourceEntry :=
  match src.data.get "versions" with
  | some _ => none
  | none =>
    match src.derivedFrom? ks with
    | .error _ => none
    | .ok (some d) => some d
    | .ok none =>
      match src.copyForward? ks with
      | .ok (.source s) => some s
      | _ => none

/-- Iterated chase steps. -/
def chaseIter (ks : KernelSeries) : Nat → KernelSourceEntry → Option KernelSourceEntry
  | 0, s => some s
  | n + 1, s =>
    match chaseNext ks s with
    | none => none
    | some t => chaseIter ks n t

/-- Acyclicity of the directed reference graph the `derived-from` /
`copy-forward` chase walks: no source of the document reaches itself in
1..N steps (a minimal cycle visits distinct sources, so any cycle yields
one of length at most N = number of sources). -/
def chaseAcyclicB (ks : KernelSeries) : Bool :=
  ks.allSources.all (fun s =>
    (List.range ks.allSources.length).all (fun k =>
      chaseIter ks (k + 1) s != some s))

theorem versionsFuel_isSome_of_stop (ks : KernelSeries) (n : Nat)
    (src : KernelSourceEntry) (h : chaseNext ks src = none) :
    (versionsFuel ks (n + 1) src).isSome = true := by
  rw [chaseNext] at h
  cases hv : src.data.get "versions" with
  | some v => simp [versionsFuel, hv]
  | none =>
    rw [hv] at h
    cases hd : src.derivedFrom? ks with
    | error e => simp [versionsFuel, hv, hd]
    | ok od =>
      cases od with
      | some d => rw [hd] at h; simp at h
      | none =>
        rw [hd] at h
        cases hc : src.copyForward? ks with
        | error e => simp [versionsFuel, hv, hd, hc]
        | ok c =>
          cases c with
          | absent => simp [versionsFuel, hv, hd, hc]
          | flagTrue => simp [versionsFuel, hv, hd, hc]
          | source s2 => rw [hc] at h; simp at h

theorem versionsFuel_step (ks : KernelSeries) (n : Nat) (src t : KernelSourceEntry)
    (h : chaseNext ks src = some t) :
    versionsFuel ks (n + 1) src = versionsFuel ks n t := by
  rw [chaseNext] at h
  cases hv : src.data.get "versions" with
  | some v => rw [hv] at h; simp at h
  | none =>
    rw [hv] at h
    cases hd : src.derivedFrom? ks with
    | error e => rw [hd] at h; simp at h
    | ok od =>
      cases od with
      | some d =>
        rw [hd] at h
        simp at h
        subst h
        simp [versionsFuel, hv, hd]
      | none =>
        rw [hd] at h
        cases hc : src.copyForward? ks with
        | error e => rw [hc] at h; simp at h
        | ok c =>
          cases c with
          | absent => rw [hc] at h; simp at h
          | flagTrue => rw [hc] at h; simp at h
          | source s2 =>
            rw [hc] at h
            simp at h
            subst h
            simp [versionsFuel, hv, hd, hc]

theorem chaseIter_add (ks : KernelSeries) :
    ∀ (m n : Nat) (s : KernelSourceEntry),
    chaseIter ks (m + n) s = (chaseIter ks m s).bind (chaseIter ks n)
  | 0, n, s => by simp [chaseIter]
  | m + 1, n, s => by
    have hh : m + 1 + n = (m + n) + 1 := by omega
    rw [hh]
    cases hc : chaseNext ks s with
    | none => simp [chaseIter, hc]
    | some t => simp [chaseIter, hc, chaseIter_add ks m n t]

theorem chaseIter_one (ks : KernelSeries) (s : KernelSourceEntry) :
    chaseIter ks 1 s = chaseNext ks s := by
  cases hc : chaseNext ks s <;> simp [chaseIter, hc]

theorem chaseIter_none_mono (ks : KernelSeries) (m n : Nat)
    (s : KernelSourceEntry) (h : chaseIter ks m s = none) (hmn : m ≤ n) :
    chaseIter ks n s = none := by
  have hh : n = m + (n - m) := by omega
  rw [hh, chaseIter_add ks m (n - m) s, h]
  rfl

theorem chaseIter_isSome_of_le (ks : KernelSeries) (m n : Nat)
    (s : KernelSourceEntry) (h : (chaseIter ks n s).isSome = true) (hmn : m ≤ n) :
    (chaseIter ks m s).isSome = true := by
  cases hx : chaseIter ks m s with
  | some t => rfl
  | none => rw [chaseIter_none_mono ks m n s hx hmn] at h; simp at h

theorem versionsFuel_isSome_of_chaseIter_none (ks : KernelSeries) :
    ∀ (n : Nat) (src : KernelSourceEntry),
    chaseIter ks n src = none → (versionsFuel ks n src).isSome = true
  | 0, src, h => by simp [chaseIter] at h
  | n + 1, src, h => by
    cases hc : chaseNext ks src with
    | none => exact versionsFuel_isSome_of_stop ks n src hc
    | some t =>
      rw [versionsFuel_step ks n src t hc]
      apply versionsFuel_isSome_of_chaseIter_none ks n t
      simpa [chaseIter, hc] using h

theorem lookupSeries_mem (ks : KernelSeries) (s c : Option String) (d : Bool)
    (e : KernelSeriesEntry) (h : ks.lookupSeries s c d = .ok (some e)) :
    e ∈ ks.seriesList := by
  obtain ⟨k, v, hv, he⟩ := lookupSeries_ok_some ks s c d e h
  subst he
  exact List.mem_map.mpr ⟨(k, v), YMap.mem_toList_of_get _ _ _ hv, rfl⟩

theorem lookupSource_mem (e : KernelSeriesEntry) (k : String)
    (src : KernelSourceEntry) (h : e.lookupSource k = some src) :
    src ∈ e.sources := by
  rw [KernelSeriesEntry.lookupSource] at h
  split at h
  next m heq =>
    cases hg : m.get k with
    | none => rw [hg] at h; simp at h
    | some v =>
      rw [hg] at h
      cases h with
      | refl =>
        rw [KernelSeriesEntry.sources, heq]
        exact List.mem_map.mpr ⟨(k, v), YMap.mem_toList_of_get _ _ _ hg, rfl⟩
  next => simp at h

theorem refLookup_mem (ks : KernelSeries) (a b : YVal) (e : KernelSourceEntry)
    (h : ks.refLookup a b = .ok (some e)) : e ∈ ks.allSources := by
  cases a with
  | str sk =>
    simp only [KernelSeries.refLookup] at h
    cases hl : ks.lookupSeries (some sk) none false with
    | error e2 => rw [hl] at h; simp at h
    | ok os =>
      cases os with
      | none => rw [hl] at h; simp at h
      | some series =>
        rw [hl] at h
        have hser := lookupSeries_mem ks (some sk) none false series hl
        cases b with
        | str srck =>
          simp at h
          have hmem := lookupSource_mem series srck e h
          rw [KernelSeries.allSources]
          exact List.mem_flatten.mpr ⟨series.sources,
            List.mem_map.mpr ⟨series, hser, rfl⟩, hmem⟩
        | null => simp at h
        | bool b2 => simp at h
        | int n2 => simp at h
        | list l2 => simp at h
        | map m2 => simp at h
  | null => simp only [KernelSeries.refLookup] at h; split at h <;> simp at h
  | bool b2 => simp only [KernelSeries.refLookup] at h; split at h <;> simp at h
  | int n2 => simp only [KernelSeries.refLookup] at h; split at h <;> simp at h
  | list l2 => simp only [KernelSeries.refLookup] at h; split at h <;> simp at h
  | map m2 => simp only [KernelSeries.refLookup] at h; split at h <;> simp at h

theorem derivedFrom_mem (ks : KernelSeries) (src d : KernelSourceEntry)
    (h : src.derivedFrom? ks = .ok (some d)) : d ∈ ks.allSources := by
  rw [KernelSourceEntry.derivedFrom?] at h
  cases hg : src.data.get "derived-from" with
  | none => rw [hg] at h; simp at h
  | some v =>
    rw [hg] at h
    cases v with
    | list l =>
      cases l with
      | nil => simp at h
      | cons a tl =>
        cases tl with
        | nil => simp at h
        | cons b tl2 =>
          cases tl2 with
          | nil =>
            simp at h
            exact refLookup_mem ks a b d h
          | cons c2 tl3 => simp at h
    | null => simp at h
    | bool b2 => simp at h
    | int n2 => simp at h
    | str s2 => simp at h
    | map m2 => simp at h

theorem copyForward_source_mem (ks : KernelSeries) (src s2 : KernelSourceEntry)
    (h : src.copyForward? ks = .ok (.source s2)) : s2 ∈ ks.allSources := by
  rw [KernelSourceEntry.copyForward?] at h
  cases hg : src.data.get "copy-forward" with
  | none => rw [hg] at h; simp at h
  | some v =>
    rw [hg] at h
    cases v with
    | bool b2 =>
      cases b2 with
      | false => simp at h
      | true =>
        cases hd : src.derivedFrom? ks with
        | error e => rw [hd] at h; simp at h
        | ok od =>
          cases od with
          | none => rw [hd] at h; simp at h
          | some d =>
            rw [hd] at h
            simp at h
            exact h ▸ derivedFrom_mem ks src d hd
    | list l =>
      cases l with
      | nil => simp at h
      | cons a tl =>
        cases tl with
        | nil => simp at h
        | cons b tl2 =>
          cases tl2 with
          | nil =>
            cases hr : ks.refLookup a b with
            | error e => simp [hr] at h
            | ok os =>
              cases os with
              | none => simp [hr] at h
              | some s3 =>
                simp [hr] at h
                exact h ▸ refLookup_mem ks a b s3 hr
          | cons c2 tl3 => simp at h
    | null => simp at h
    | int n2 => simp at h
    | str st2 => simp at h
    | map m2 => simp at h

theorem chaseNext_mem (ks : KernelSeries) (src t : KernelSourceEntry)
    (h : chaseNext ks src = some t) : t ∈ ks.allSources := by
  rw [chaseNext] at h
  cases hv : src.data.get "versions" with
  | some v => rw [hv] at h; simp at h
  | none =>
    rw [hv] at h
    cases hd : src.derivedFrom? ks with
    | error e => rw [hd] at h; simp at h
    | ok od =>
      cases od with
      | some d =>
        rw [hd] at h
        simp at h
        exact h ▸ derivedFrom_mem ks src d hd
      | none =>
        rw [hd] at h
        cases hc : src.copyForward? ks with
        | error e => rw [hc] at h; simp at h
        | ok c =>
          cases c with
          | absent => rw [hc] at h; simp at h
          | flagTrue => rw [hc] at h; simp at h
          | source s3 =>
            rw [hc] at h
            simp at h
            exact h ▸ copyForward_source_mem ks src s3 hc

/-- Under acyclicity of the reference graph, the chase from any source dies
within `N + 1` steps, `N` the number of sources in the document. -/
theorem chase_terminates (ks : KernelSeries) (src : KernelSourceEntry)
    (hA : chaseAcyclicB ks = true) :
    chaseIter ks (ks.allSources.length + 1) src = none := by
  by_contra h0
  have halive : ∀ i, i ≤ ks.allSources.length + 1 →
      (chaseIter ks i src).isSome = true := by
    intro i hi
    refine chaseIter_isSome_of_le ks i (ks.allSources.length + 1) src ?_ hi
    cases hx : chaseIter ks (ks.allSources.length + 1) src with
    | none => exact absurd hx h0
    | some _ => rfl
  let f : Fin (ks.allSources.length + 1) → KernelSourceEntry := fun i =>
    (chaseIter ks (i.val + 1) src).get (halive (i.val + 1) (by omega))
  have hsome : ∀ i, chaseIter ks (i.val + 1) src = some (f i) := by
    intro i
    exact (Option.some_get (halive (i.val + 1) (by omega))).symm
  have hfmem : ∀ i, f i ∈ ks.allSources := by
    intro i
    have h1 := hsome i
    rw [chaseIter_add ks i.val 1 src] at h1
    cases hu : chaseIter ks i.val src with
    | none => rw [hu] at h1; simp at h1
    | some u =>
      rw [hu] at h1
      replace h1 : chaseIter ks 1 u = some (f i) := h1
      rw [chaseIter_one] at h1
      exact chaseNext_mem ks u (f i) h1
  have key : ∀ (a b : Fin (ks.allSources.length + 1)),
      a.val < b.val → f a = f b → False := by
    intro a b hab hfab
    have h1 := hsome a
    have h2 := hsome b
    rw [hfab] at h1
    have hsplit : b.val + 1 = (a.val + 1) + (b.val - a.val) := by omega
    rw [hsplit, chaseIter_add ks (a.val + 1) (b.val - a.val) src, h1] at h2
    replace h2 : chaseIter ks (b.val - a.val) (f b) = some (f b) := h2
    have hAc := hA
    rw [chaseAcyclicB, List.all_eq_true] at hAc
    have h3 := hAc (f b) (hfmem b)
    rw [List.all_eq_true] at h3
    have h4 := h3 (b.val - a.val - 1)
      (List.mem_range.mpr (by omega))
    rw [show b.val - a.val - 1 + 1 = b.val - a.val from by omega] at h4
    rw [bne_iff_ne] at h4
    exact h4 h2
  let g : Fin (ks.allSources.length + 1) → Fin ks.allSources.length := fun i =>
    ⟨ks.allSources.indexOf (f i), List.indexOf_lt_length.mpr (hfmem i)⟩
  obtain ⟨i, j, hij, hgij⟩ := Fintype.exists_ne_map_eq_of_card_lt g (by simp)
  have hfij : f i = f j := by
    have hval : ks.allSources.indexOf (f i) = ks.allSources.indexOf (f j) :=
      congrArg Fin.val hgij
    exact (List.indexOf_inj (hfmem i) (hfmem j)).mp hval
  rcases Nat.lt_trichotomy i.val j.val with hlt | heq | hlt
  · exact key i j hlt hfij
  · exact hij (Fin.ext heq)
  · exact key j i hlt hfij.symm

/-- A one-series document whose single source derives from itself. -/
def docCyc : YMap :=
  ym [("A", .map (ym [("sources", .map (ym [("linux",
    .map (ym [("derived-from", .list (yl [.str "A", .str "linux"]))]))]))]))]

/-- The parsed `KernelSeries` over `docCyc`. -/
def ksCyc : KernelSeries := ksInit docCyc

/-- Series `A` of `docCyc`. -/
def seriesCyc : KernelSeriesEntry :=
  mkSeriesEntry "A" (.map (ym [("sources", .map (ym [("linux",
    .map (ym [("derived-from", .list (yl [.str "A", .str "linux"]))]))]))]))
    (.map .nil)

/-- The self-deriving source of `docCyc`. -/
def srcCyc : KernelSourceEntry :=
  mkSourceEntry seriesCyc "linux"
    (.map (ym [("derived-from", .list (yl [.str "A", .str "linux"]))]))

/-- C8 (termination of the derivation chase): whenever the directed
graph of `derived-from`/`copy-forward` references between the document's
sources is acyclic, the `versions` recursion of every source reaches an
outcome within `N + 1` unfoldings (`N` the number of sources) — the fuelled
embedding never exhausts its fuel; and the traversal indeed performs no
cycle detection: on a document whose source derives from itself, every
finite fuel is exhausted, i.e. the Python property recurses forever. -/
theorem c8_chase_termination :
    (∀ (ks : KernelSeries) (src : KernelSourceEntry),
        chaseAcyclicB ks = true →
        (versionsFuel ks (ks.allSources.length + 1) src).isSome = true)
    ∧ (∀ fuel : Nat, versionsFuel ksCyc fuel srcCyc = none) := by
  constructor
  · intro ks src hA
    exact versionsFuel_isSome_of_chaseIter_none ks _ src
      (chase_terminates ks src hA)
  · intro fuel
    induction fuel with
    | zero => rfl
    | succ n ih =>
      rw [versionsFuel_step ksCyc n srcCyc srcCyc (by decide)]
      exact ih

theorem c8_chase_termination_witness :
    chaseAcyclicB ksC2 = true ∧
    (versionsFuel ksC2 (ksC2.allSources.length + 1) srcBC2).isSome = true :=
  ⟨by decide, c8_chase_termination.1 ksC2 srcBC2 (by decide)⟩

end KSeries
